import Mathlib

/-
Verification of the presenterm presentation-builder core against its
natural-language specification.

The Rust sources `src/builder.rs` and `src/presenter.rs` are shallowly
embedded below: pure functions become Lean functions, the builder's mutable
state becomes an explicit state record threaded through `Except`, machine
integers (`u8`, `usize`, `u16`) become `Nat` (no arithmetic here ever nears
an overflow boundary and all quantities are small counters, lengths and
indices), and external collaborators (the YAML parser, theme loader, image
loader, syntax highlighter, code executor, presentation differ) become
function parameters, exactly as the spec scopes them out.  Rust `panic!`
sites are modelled as a dedicated failure constructor so that reachability
of a panic is an observable outcome.
-/

namespace Presenterm

/-- A foreground/background color pair.  The concrete color representation
lives outside the core (style.rs); the builder only moves it around, so it
is kept as inert data. -/
structure Colors where
  foreground : Option Nat := none
  background : Option Nat := none
  deriving DecidableEq, Repr

/-- Margin, from theme.rs: either a fixed number of columns or a percentage. -/
inductive Margin where
  | fixed (amount : Nat)
  | percent (amount : Nat)
  deriving DecidableEq, Repr

/-- Text alignment, from theme.rs. -/
inductive Alignment where
  | left (margin : Margin)
  | center (minimumSize : Nat) (minimumMargin : Margin)
  | right (margin : Margin)
  deriving DecidableEq, Repr

/-- Text style flags; `code` mirrors `TextStyle::is_code`. -/
structure TextStyle where
  bold : Bool := false
  code : Bool := false
  colors : Colors := {}
  deriving DecidableEq, Repr

/-- A styled chunk of text (markdown/elements.rs `StyledText`). -/
structure StyledText where
  text : String
  style : TextStyle := {}
  deriving DecidableEq, Repr

/-- A piece of markdown text: a list of styled chunks. -/
structure Text where
  chunks : List StyledText
  deriving DecidableEq, Repr

/-- `StyledText::from(String)`: a chunk with default style. -/
def StyledText.ofString (s : String) : StyledText := { text := s }

/-- `Text::from` on a single plain string. -/
def Text.ofString (s : String) : Text := ⟨[StyledText.ofString s]⟩

/-- `Text::apply_style`: merge a style onto every chunk.  The merge logic
lives in markdown/elements.rs outside `src`; it only rewrites style fields,
never the text payload, so it is modelled as overriding bold/colors. -/
def Text.applyStyle (text : Text) (style : TextStyle) : Text :=
  ⟨text.chunks.map fun chunk =>
    let merged : TextStyle :=
      { chunk.style with bold := chunk.style.bold || style.bold, colors := style.colors }
    { chunk with style := merged }⟩

/-! Structurally recursive models of the Rust `str` methods the builder
uses (`trim`, `contains`, `lines`), evaluated over the string's character
list so that closed examples compute inside the kernel. -/

/-- Rust `char::is_whitespace` restricted to the ASCII whitespace the
builder's inputs contain. -/
def isRustWhitespace (c : Char) : Bool :=
  c = ' ' || c = '\t' || c = '\n' || c = '\r'

/-- Rust `str::trim`: strip leading and trailing whitespace. -/
def strTrim (s : String) : String :=
  ⟨((s.data.dropWhile isRustWhitespace).reverse.dropWhile isRustWhitespace).reverse⟩

/-- Rust `str::contains(char)`. -/
def strContainsChar (s : String) (c : Char) : Bool :=
  s.data.contains c

/-- Splitting a character list at newline separators. -/
def splitAtNewlines (acc : List Char) : List Char → List String
  | [] => [⟨acc.reverse⟩]
  | c :: rest =>
    if c = '\n' then String.mk acc.reverse :: splitAtNewlines [] rest
    else splitAtNewlines (c :: acc) rest

/-- Rust `str::lines`: split on newlines, with a trailing newline not
producing a final empty line. -/
def rustLines (s : String) : List String :=
  if s = "" then []
  else if s.data.getLast? = some '\n' then splitAtNewlines [] s.data.dropLast
  else splitAtNewlines [] s.data

/-- The type of a list item bullet (markdown/elements.rs `ListItemType`). -/
inductive ListItemType where
  | unordered
  | orderedParens
  | orderedPeriod
  deriving DecidableEq, Repr

/-- A flat list item with its nesting depth (markdown/elements.rs `ListItem`). -/
structure ListItem where
  depth : Nat
  contents : Text
  itemType : ListItemType
  deriving DecidableEq, Repr

/-! ## List numbering engine (`ListIterator`, builder.rs lines 1089-1137) -/

/-- The state of `ListIterator` (builder.rs): the pending index, the depth of
the previously emitted item, and the per-depth stack of saved indices (head
of the list is the top of the stack, matching `Vec::push`/`Vec::pop`). -/
structure ListIterator where
  nextIndex : Nat
  currentDepth : Nat
  savedIndexes : List Nat
  deriving DecidableEq, Repr

/-- `ListIterator::new`: starts at the given index, depth 0, empty stack. -/
def ListIterator.new (nextIndex : Nat) : ListIterator :=
  { nextIndex, currentDepth := 0, savedIndexes := [] }

/-- The `for _ in head.depth..self.current_depth` loop body of
`ListIterator::next`: pop the stack `levels` times, each time replacing
`next_index` with the popped value or 0 when the stack is exhausted
(`self.saved_indexes.pop().unwrap_or(0)`). -/
def ListIterator.popSaved : Nat → List Nat → Nat → Nat × List Nat
  | 0, saved, nextIndex => (nextIndex, saved)
  | levels + 1, [], _ => ListIterator.popSaved levels [] 0
  | levels + 1, top :: rest, _ => ListIterator.popSaved levels rest top

/-- An item paired with its computed ordinal index (builder.rs `IndexedListItem`). -/
structure IndexedListItem where
  index : Nat
  item : ListItem
  deriving DecidableEq, Repr

/-- One step of `ListIterator::next` (builder.rs lines 1112-1131): on a depth
increase push the current `next_index` once and reset it to 0; on a depth
decrease pop once per level descended; then emit the current `next_index`
and increment it. -/
def ListIterator.next (st : ListIterator) (head : ListItem) : ListIterator × IndexedListItem :=
  let st :=
    if head.depth = st.currentDepth then st
    else if st.currentDepth < head.depth then
      { nextIndex := 0, currentDepth := head.depth,
        savedIndexes := st.nextIndex :: st.savedIndexes }
    else
      let (nextIndex, savedIndexes) :=
        ListIterator.popSaved (st.currentDepth - head.depth) st.savedIndexes st.nextIndex
      { nextIndex, currentDepth := head.depth, savedIndexes }
  ({ st with nextIndex := st.nextIndex + 1 }, { index := st.nextIndex, item := head })

/-- Driving the iterator over a whole item list, as `for item in iter` does in
`push_list`. -/
def ListIterator.run (st : ListIterator) : List ListItem → List IndexedListItem
  | [] => []
  | head :: rest =>
    let (st', out) := ListIterator.next st head
    out :: ListIterator.run st' rest

/-- Indices assigned by the iterator started at `start`. -/
def listIndexes (start : Nat) (items : List ListItem) : List Nat :=
  (ListIterator.run (ListIterator.new start) items).map IndexedListItem.index

/-! A second rendition of the numbering algorithm, written from the
specification's words alone, to compare with the embedding of the code. -/

/-- Written from the spec: "pop one saved index per level descended, falling
back to 0 if the stack is exhausted". -/
def specPopPerLevel : Nat → List Nat → Nat → Nat × List Nat
  | 0, stack, current => (current, stack)
  | levels + 1, [], _ => specPopPerLevel levels [] 0
  | levels + 1, top :: stack, _ => specPopPerLevel levels stack top

/-- Written from the spec (section 4.1): maintain `next_index` and a stack of
saved indices; on a depth increase push the current `next_index` and reset to
0; on a depth decrease pop one saved index per level descended, falling back
to 0 when the stack is exhausted; each emitted item consumes and increments
`next_index`. -/
def specAssignIndexes : Nat → List Nat → Nat → List ListItem → List Nat
  | _, _, _, [] => []
  | nextIndex, stack, depth, item :: rest =>
    if depth < item.depth then
      0 :: specAssignIndexes 1 (nextIndex :: stack) item.depth rest
    else if item.depth < depth then
      let (recovered, stack') := specPopPerLevel (depth - item.depth) stack nextIndex
      recovered :: specAssignIndexes (recovered + 1) stack' item.depth rest
    else
      nextIndex :: specAssignIndexes (nextIndex + 1) stack depth rest

/-- An unordered item at a given depth, as in the builder's unit tests. -/
def uitem (depth : Nat) : ListItem :=
  { depth, contents := Text.ofString "x", itemType := ListItemType.unordered }

/-! ## Progressive reveal engine (`HighlightContext` / `HighlightMutator`,
builder.rs lines 679-761) -/

/-- A single highlighted line selector (markdown/elements.rs `Highlight`). -/
inductive Highlight where
  | all
  | single (line : Nat)
  | range (start : Nat) (stop : Nat)
  deriving DecidableEq, Repr

/-- One reveal step: the set of lines highlighted together. -/
structure HighlightGroup where
  entries : List Highlight
  deriving DecidableEq, Repr

/-- The shared mutable context of one code block (builder.rs lines 679-685).
In Rust it sits behind `Rc<RefCell<..>>`; the single-threaded mutation is
modelled by passing the record in and out of each mutator operation. -/
structure HighlightContext where
  groups : List HighlightGroup
  current : Nat
  blockLength : Nat
  alignment : Alignment
  deriving DecidableEq, Repr

/-- `HighlightMutator::mutate_next` (builder.rs lines 728-736): move forward
one step unless already at the last group, returning whether it moved. -/
def HighlightMutator.mutateNext (context : HighlightContext) : Bool × HighlightContext :=
  if context.current = context.groups.length - 1 then (false, context)
  else (true, { context with current := context.current + 1 })

/-- `HighlightMutator::mutate_previous` (builder.rs lines 738-746): move back
one step unless already at step 0, returning whether it moved. -/
def HighlightMutator.mutatePrevious (context : HighlightContext) : Bool × HighlightContext :=
  if context.current = 0 then (false, context)
  else (true, { context with current := context.current - 1 })

/-- `HighlightMutator::reset_mutations` (builder.rs lines 748-750). -/
def HighlightMutator.resetMutations (context : HighlightContext) : HighlightContext :=
  { context with current := 0 }

/-- `HighlightMutator::apply_all_mutations` (builder.rs lines 752-755): jump
to the last group. -/
def HighlightMutator.applyAllMutations (context : HighlightContext) : HighlightContext :=
  { context with current := context.groups.length - 1 }

/-- `HighlightMutator::mutations` (builder.rs lines 757-760): progress report. -/
def HighlightMutator.mutations (context : HighlightContext) : Nat × Nat :=
  (context.current, context.groups.length)

/-! ## On-demand execution operation (`RunCodeOperation`, builder.rs lines
945-1050) -/

/-- Code block language (markdown/elements.rs). -/
inductive CodeLanguage where
  | unknown
  | rust
  | named (name : String)
  deriving DecidableEq, Repr

/-- Code block attributes (markdown/elements.rs `CodeAttributes`). -/
structure CodeAttributes where
  execute : Bool := false
  lineNumbers : Bool := false
  highlightGroups : List HighlightGroup := []
  deriving DecidableEq, Repr

/-- A fenced code block (markdown/elements.rs `Code`). -/
structure Code where
  contents : String
  language : CodeLanguage
  attributes : CodeAttributes
  deriving DecidableEq, Repr

/-- State of an on-demand render operation: `NotStarted → Rendering →
Rendered`.  Modelled from the spec: the type lives in presentation.rs, which
is outside `src`; the spec (section 4.5) names exactly these three states. -/
inductive RenderOnDemandState where
  | notStarted
  | rendering
  | rendered
  deriving DecidableEq, Repr

/-- A handle onto a spawned external process.  The executor is an external
collaborator; only the handle's identity matters here. -/
structure ExecutionHandle where
  id : Nat := 0
  deriving DecidableEq, Repr

/-- The interior-mutability cell of `RunCodeOperation` (builder.rs lines
945-950). -/
structure RunCodeOperationInner where
  handle : Option ExecutionHandle := none
  outputLines : List String := []
  state : RenderOnDemandState := RenderOnDemandState.notStarted
  deriving DecidableEq, Repr

/-- `RunCodeOperation::start_render` (builder.rs lines 1032-1049).
`CodeExecuter::execute(&self.code)` is an external collaborator, so its
outcome is taken as the argument `execResult`: `ok` carries the pollable
handle, `error` the spawn-failure text. -/
def RunCodeOperation.startRender (execResult : Except String ExecutionHandle)
    (inner : RunCodeOperationInner) : Bool × RunCodeOperationInner :=
  if inner.state ≠ RenderOnDemandState.notStarted then (false, inner)
  else
    match execResult with
    | Except.ok handle =>
      (true, { inner with handle := some handle, state := RenderOnDemandState.rendering })
    | Except.error e =>
      (true, { inner with outputLines := [e], state := RenderOnDemandState.rendered })

/-! ## Presentation data model

`Presentation`, `Slide` and `SlideChunk` live in presentation.rs, which is
not under `src`; their container shape and cursor behavior are modelled from
the spec (section 3): a presentation is an ordered sequence of slides plus a
cursor `(current_slide_index, current_chunk_index)` that is clamped on
navigation; a slide is an ordered sequence of chunks plus a footer; a chunk
is an ordered sequence of render operations plus its chunk mutators. -/

/-- Element types used for theme alignment lookup (theme.rs `ElementType`). -/
inductive ElementType where
  | presentationTitle
  | presentationSubTitle
  | presentationAuthor
  | slideTitle
  | heading1
  | heading2
  | heading3
  | heading4
  | heading5
  | heading6
  | paragraph
  | list
  | code
  | table
  | blockQuote
  deriving DecidableEq, Repr

/-- Where the intro slide places the author line (theme.rs `AuthorPositioning`). -/
inductive AuthorPositioning where
  | belowTitle
  | pageBottom
  deriving DecidableEq, Repr

/-- Footer style (theme.rs `FooterStyle`), carried as data by the lazily
rendered footer generator. -/
inductive FooterStyle where
  | template (left : Option String) (center : Option String) (right : Option String)
      (colors : Colors)
  | progressBar (character : Option Char) (colors : Colors)
  | empty
  deriving DecidableEq, Repr

/-- Heading style per level: optional prefix glyph plus colors. -/
structure HeadingStyle where
  prefixGlyph : Option String := none
  colors : Colors := {}
  deriving DecidableEq, Repr

/-- The six heading styles (theme.rs `headings.h1` … `h6`). -/
structure HeadingStyles where
  h1 : HeadingStyle := {}
  h2 : HeadingStyle := {}
  h3 : HeadingStyle := {}
  h4 : HeadingStyle := {}
  h5 : HeadingStyle := {}
  h6 : HeadingStyle := {}
  deriving DecidableEq, Repr

/-- Slide title (setex heading) style. -/
structure SlideTitleStyle where
  colors : Colors := {}
  paddingTop : Option Nat := none
  paddingBottom : Option Nat := none
  separator : Bool := false
  deriving DecidableEq, Repr

/-- Intro slide styles (title / subtitle / author colors and positioning). -/
structure IntroSlideStyle where
  titleColors : Colors := {}
  subtitleColors : Colors := {}
  authorColors : Colors := {}
  authorPositioning : AuthorPositioning := AuthorPositioning.belowTitle
  deriving DecidableEq, Repr

/-- Block quote style. -/
structure BlockQuoteStyle where
  prefixGlyph : Option String := none
  colors : Colors := {}
  deriving DecidableEq, Repr

/-- Code block theme settings. -/
structure CodeBlockStyle where
  themeName : Option String := none
  paddingHorizontal : Option Nat := none
  paddingVertical : Option Nat := none
  deriving DecidableEq, Repr

/-- Default style: base colors and slide margin. -/
structure DefaultStyle where
  colors : Colors := {}
  margin : Option Margin := none
  deriving DecidableEq, Repr

/-- Simple colored style (inline code, execution output). -/
structure ColorsStyle where
  colors : Colors := {}
  deriving DecidableEq, Repr

/-- The slice of `PresentationTheme` the builder reads.  The theme itself is
loaded by external collaborators; the builder only consumes these fields. -/
structure PresentationTheme where
  defaultStyle : DefaultStyle := {}
  slideTitle : SlideTitleStyle := {}
  headings : HeadingStyles := {}
  introSlide : IntroSlideStyle := {}
  blockQuote : BlockQuoteStyle := {}
  inlineCode : ColorsStyle := {}
  code : CodeBlockStyle := {}
  executionOutput : ColorsStyle := {}
  footer : FooterStyle := FooterStyle.empty
  alignments : ElementType → Alignment := fun _ => Alignment.left (Margin.fixed 0)

/-- `theme.alignment(&element_type)`. -/
def PresentationTheme.alignment (theme : PresentationTheme) (elementType : ElementType) :
    Alignment :=
  theme.alignments elementType

/-- A loaded image; resolution happens in the external resource loader, so
only the resolved identity is kept. -/
structure Image where
  path : String
  deriving DecidableEq, Repr

/-- Margin properties applied at the top of every slide. -/
structure MarginProperties where
  horizontalMargin : Margin
  bottomSlideMargin : Nat
  deriving DecidableEq, Repr

/-- A preformatted line (presentation.rs `PreformattedLine`), as carried by
block quotes and highlighted code lines. -/
structure PreformattedLine where
  text : String
  unformattedLength : Nat
  blockLength : Nat
  alignment : Alignment
  deriving DecidableEq, Repr

/-- The precomputed data of one code line behind a dynamic render operation
(builder.rs `HighlightedLine`, minus the shared context handle). -/
structure HighlightedLineData where
  highlighted : String
  notHighlighted : String
  lineNumber : Option Nat
  width : Nat
  deriving DecidableEq, Repr

/-- The data of a lazily rendered footer (builder.rs `FooterGenerator`,
minus the shared `FooterContext` handle, which is resolved at render time). -/
structure FooterGeneratorData where
  currentSlide : Nat
  style : FooterStyle
  deriving DecidableEq, Repr

/-- The data carried by an on-demand code execution operation (builder.rs
`RunCodeOperation`, whose interior cell starts in `NotStarted`). -/
structure RunCodeOperationData where
  code : Code
  defaultColors : Colors
  blockColors : Colors
  deriving DecidableEq, Repr

/-- The payload of a `RenderDynamic` operation: one of the three dynamic
generators the builder creates (separator, highlighted code line, footer). -/
inductive DynamicContent where
  | separator (heading : String)
  | highlightedLine (line : HighlightedLineData)
  | footerGenerator (generator : FooterGeneratorData)
  deriving DecidableEq, Repr

/-- Render operations (presentation.rs `RenderOperation`; the exhaustive
variant list appears in the builder's `is_visible` test helper). -/
inductive RenderOperation where
  | clearScreen
  | setColors (colors : Colors)
  | jumpToVerticalCenter
  | jumpToBottomRow (index : Nat)
  | initColumnLayout (columns : List Nat)
  | enterColumn (column : Nat)
  | exitLayout
  | applyMargin (properties : MarginProperties)
  | popMargin
  | renderText (line : List StyledText) (alignment : Alignment)
  | renderLineBreak
  | renderImage (image : Image)
  | renderPreformattedLine (line : PreformattedLine)
  | renderDynamic (content : DynamicContent)
  | renderOnDemand (content : RunCodeOperationData)
  deriving DecidableEq, Repr

/-- A chunk: the operations revealed together between two pauses, plus the
mutators attached to them (each mutator is a `HighlightMutator` over its
context). -/
structure SlideChunk where
  operations : List RenderOperation := []
  mutators : List HighlightContext := []
  deriving DecidableEq, Repr

/-- `SlideChunk::pop_last`: drop the chunk's last operation (modelled from
the spec, section 4.3: "merge visually by dropping the trailing break of
that prior chunk"). -/
def SlideChunk.popLast (chunk : SlideChunk) : SlideChunk :=
  { chunk with operations := chunk.operations.dropLast }

/-- A slide: its chunks plus the footer generated at termination time. -/
structure Slide where
  chunks : List SlideChunk := []
  footer : List RenderOperation := []
  deriving DecidableEq, Repr

/-- All operations of a slide in render order: every chunk's operations,
then the footer (modelled from the spec: chunks within a slide are rendered
cumulatively in order, and every slide has exactly one footer). -/
def Slide.intoOperations (slide : Slide) : List RenderOperation :=
  (slide.chunks.flatMap SlideChunk.operations) ++ slide.footer

/-- A presentation: slides plus the navigation cursor. -/
structure Presentation where
  slides : List Slide := []
  currentSlide : Nat := 0
  currentChunk : Nat := 0
  deriving DecidableEq, Repr

/-- `Presentation::new`: cursor starts at the first slide and chunk
(modelled from the spec, section 3). -/
def Presentation.new (slides : List Slide) : Presentation :=
  { slides, currentSlide := 0, currentChunk := 0 }

/-- Number of chunks of the slide under the cursor. -/
def Presentation.currentSlideChunkCount (p : Presentation) : Nat :=
  ((p.slides.getD p.currentSlide {}).chunks).length

/-- `Presentation::jump_slide`: clamped to bounds (modelled from the spec,
section 3: "cursor indices are always valid into the current slide list,
clamped on navigation, never out of bounds"). -/
def Presentation.jumpSlide (p : Presentation) (index : Nat) : Presentation :=
  { p with currentSlide := min index (p.slides.length - 1) }

/-- `Presentation::jump_chunk`: clamped to the current slide's chunk count
(modelled from the spec, section 3). -/
def Presentation.jumpChunk (p : Presentation) (index : Nat) : Presentation :=
  { p with currentChunk := min index (p.currentSlideChunkCount - 1) }

/-! ## Markdown input elements (markdown/elements.rs, as consumed by the
builder) -/

/-- Source position of an embedded comment; only the starting line is read
(builder.rs uses `source_position.start.line`). -/
structure SourcePosition where
  startLine : Nat := 0
  deriving DecidableEq, Repr

/-- A paragraph element: a text run or an explicit line-break marker. -/
inductive ParagraphElement where
  | text (text : Text)
  | lineBreak
  deriving DecidableEq, Repr

/-- A table row: one `Text` per column. -/
structure TableRow where
  cells : List Text
  deriving DecidableEq, Repr

/-- A table: header plus data rows. -/
structure Table where
  header : TableRow
  rows : List TableRow
  deriving DecidableEq, Repr

/-- The content elements produced by the external parser. -/
inductive MarkdownElement where
  | frontMatter (contents : String)
  | setexHeading (text : Text)
  | heading (level : Nat) (text : Text)
  | paragraph (elements : List ParagraphElement)
  | list (elements : List ListItem)
  | code (code : Code)
  | table (table : Table)
  | thematicBreak
  | comment (comment : String) (sourcePosition : SourcePosition)
  | blockQuote (lines : List String)
  | image (path : String)
  deriving DecidableEq, Repr

/-- The embedded command language (builder.rs `CommentCommand`). -/
inductive CommentCommand where
  | pause
  | endSlide
  | initColumnLayout (columns : List Nat)
  | column (column : Nat)
  | resetLayout
  deriving DecidableEq, Repr

/-- Build errors (builder.rs `BuildError`).  `panicked` is not a Rust error
variant: it models a `panic!` reached inside the builder (the unexpected
heading level in `push_heading`), kept distinct so that panic reachability
is observable. -/
inductive BuildError where
  | loadImage (message : String)
  | invalidMetadata (message : String)
  | invalidTheme (message : String)
  | invalidCodeTheme
  | invalidLayout (message : String)
  | noLayout
  | alreadyInColumn
  | columnIndexTooLarge
  | notInsideColumn
  | commandParse (line : Nat) (message : String)
  | panicked (message : String)
  deriving DecidableEq, Repr

/-- Per-slide layout state (builder.rs `LayoutState`). -/
inductive LayoutState where
  | layoutDefault
  | inLayout (columnsCount : Nat)
  | inColumn (column : Nat) (columnsCount : Nat)
  deriving DecidableEq, Repr

/-- Last-element memory (builder.rs `LastElement`). -/
inductive LastElement where
  | any
  | list (lastIndex : Nat)
  deriving DecidableEq, Repr

/-- Per-slide builder state (builder.rs `SlideState`), reset at every slide
boundary. -/
structure SlideState where
  ignoreElementLineBreak : Bool := false
  needsEnterColumn : Bool := false
  lastChunkEndedInList : Bool := false
  lastElement : LastElement := LastElement.any
  layout : LayoutState := LayoutState.layoutDefault
  deriving DecidableEq, Repr

/-- Builder options (builder.rs `PresentationBuilderOptions`). -/
structure PresentationBuilderOptions where
  allowMutations : Bool := true
  deriving DecidableEq, Repr

/-- A syntax highlighter handle.  Highlighting itself is an external
collaborator reached through `BuilderCtx.highlightCodeLine`. -/
structure CodeHighlighter where
  themeName : String := ""
  deriving DecidableEq, Repr

/-- Theme overrides from front matter; merging them onto a theme happens in
an external crate, reached through `BuilderCtx.mergeThemeOverrides`. -/
structure ThemeOverrides where
  raw : String := ""
  deriving DecidableEq, Repr

/-- Theme reference in front matter (`PresentationThemeMetadata`). -/
structure PresentationThemeMetadata where
  name : Option String := none
  path : Option String := none
  overrides : Option ThemeOverrides := none
  deriving DecidableEq, Repr

/-- Parsed front matter (`PresentationMetadata`). -/
structure PresentationMetadata where
  title : Option String := none
  subTitle : Option String := none
  author : Option String := none
  theme : PresentationThemeMetadata := {}
  deriving DecidableEq, Repr

/-- The external collaborators the builder calls, per the spec's interface
boundary: YAML parsing of front matter and commands, theme resolution,
image loading, and syntax highlighting. -/
structure BuilderCtx where
  parseMetadata : String → Except String PresentationMetadata
  themeFromName : String → Option PresentationTheme
  loadThemeFile : String → Except String PresentationTheme
  mergeThemeOverrides : PresentationTheme → ThemeOverrides → Except String PresentationTheme
  newCodeHighlighter : String → Option CodeHighlighter
  loadImage : String → Except String Image
  parseCommand : String → Except String CommentCommand
  highlightCodeLine : CodeHighlighter → CodeLanguage → String → String

/-- The builder's mutable state (`PresentationBuilder`'s fields).  The
shared `footer_context` cell is represented by the author it accumulates;
its `total_slides` is resolved only after all slides exist. -/
structure BState where
  slideChunks : List SlideChunk := []
  chunkOperations : List RenderOperation := []
  chunkMutators : List HighlightContext := []
  slides : List Slide := []
  highlighter : CodeHighlighter := {}
  theme : PresentationTheme := {}
  slideState : SlideState := {}
  footerAuthor : String := ""
  options : PresentationBuilderOptions := {}

/-! ## Builder operation push helpers (builder.rs lines 122-526) -/

/-- Append render operations to the chunk under construction. -/
def pushOperations (ops : List RenderOperation) (st : BState) : BState :=
  { st with chunkOperations := st.chunkOperations ++ ops }

/-- `push_line_break` (builder.rs line 469). -/
def pushLineBreak (st : BState) : BState :=
  pushOperations [RenderOperation.renderLineBreak] st

/-- Apply `push_line_break` a given number of times (the
`for _ in 0..n` padding loops of `push_slide_title`). -/
def pushLineBreaks : Nat → BState → BState
  | 0, st => st
  | n + 1, st => pushLineBreaks n (pushLineBreak st)

/-- `push_slide_prelude` (builder.rs lines 122-133): set colors, clear the
screen, apply the margin, then one leading line break. -/
def pushSlidePrelude (st : BState) : BState :=
  let colors := st.theme.defaultStyle.colors
  let st := pushOperations
    [RenderOperation.setColors colors,
     RenderOperation.clearScreen,
     RenderOperation.applyMargin
       { horizontalMargin := st.theme.defaultStyle.margin.getD (Margin.fixed 0),
         bottomSlideMargin := 3 }] st
  pushLineBreak st

/-- `push_aligned_text` (builder.rs lines 455-467): restyle inline-code
chunks, then push one `RenderText` unless the chunk list is empty. -/
def pushAlignedText (text : Text) (alignment : Alignment) (st : BState) : BState :=
  let texts := text.chunks.map fun chunk =>
    if chunk.style.code then
      { chunk with style := { chunk.style with colors := st.theme.inlineCode.colors } }
    else chunk
  if texts.isEmpty then st
  else pushOperations [RenderOperation.renderText texts alignment] st

/-- `push_text` (builder.rs lines 450-453): aligned per the theme's element
alignment. -/
def pushText (text : Text) (elementType : ElementType) (st : BState) : BState :=
  pushAlignedText text (st.theme.alignment elementType) st

/-- `push_slide_title` (builder.rs lines 307-325): padded, bold slide title
(setex heading), optional separator, and suppression of the automatic
trailing line break. -/
def pushSlideTitle (text : Text) (st : BState) : BState :=
  let style := st.theme.slideTitle
  let text := text.applyStyle { bold := true, colors := style.colors }
  let st := pushLineBreaks (style.paddingTop.getD 0) st
  let st := pushText text ElementType.slideTitle st
  let st := pushLineBreak st
  let st := pushLineBreaks (style.paddingBottom.getD 0) st
  let st :=
    if style.separator then
      pushOperations [RenderOperation.renderDynamic (DynamicContent.separator "")] st
    else st
  let st := pushLineBreak st
  { st with slideState := { st.slideState with ignoreElementLineBreak := true } }

/-- The level dispatch of `push_heading` (builder.rs lines 328-336),
returning the element type and style, or the `panic!` message for an
unexpected level. -/
def headingStyleFor (st : BState) (level : Nat) : Except String (ElementType × HeadingStyle) :=
  if level = 1 then Except.ok (ElementType.heading1, st.theme.headings.h1)
  else if level = 2 then Except.ok (ElementType.heading2, st.theme.headings.h2)
  else if level = 3 then Except.ok (ElementType.heading3, st.theme.headings.h3)
  else if level = 4 then Except.ok (ElementType.heading4, st.theme.headings.h4)
  else if level = 5 then Except.ok (ElementType.heading5, st.theme.headings.h5)
  else if level = 6 then Except.ok (ElementType.heading6, st.theme.headings.h6)
  else Except.error s!"unexpected heading level {level}"

/-- `push_heading` (builder.rs lines 327-347).  A level outside 1-6 hits a
`panic!` in the source, modelled as `BuildError.panicked`. -/
def pushHeading (level : Nat) (text : Text) (st : BState) : Except BuildError BState :=
  match headingStyleFor st level with
  | Except.error msg => Except.error (BuildError.panicked msg)
  | Except.ok (elementType, style) =>
    let text :=
      match style.prefixGlyph with
      | some p => { text with chunks := StyledText.ofString (p ++ " ") :: text.chunks }
      | none => text
    let text := text.applyStyle { bold := true, colors := style.colors }
    let st := pushText text elementType st
    Except.ok (pushLineBreak st)

/-- `push_paragraph` (builder.rs lines 349-362): every text run gets a
trailing line break; explicit line-break markers are no-ops.  (The Rust
signature returns `Result` but never fails.) -/
def pushParagraph (elements : List ParagraphElement) (st : BState) : BState :=
  elements.foldl
    (fun st element =>
      match element with
      | ParagraphElement.text text => pushLineBreak (pushText text ElementType.paragraph st)
      | ParagraphElement.lineBreak => st)
    st

/-- `push_separator` (builder.rs lines 364-366). -/
def pushSeparator (st : BState) : BState :=
  pushOperations
    [RenderOperation.renderDynamic (DynamicContent.separator ""),
     RenderOperation.renderLineBreak] st

/-- `push_image` (builder.rs lines 368-373): resolve through the resource
loader, render the image, then restore default colors. -/
def pushImage (ctx : BuilderCtx) (path : String) (st : BState) : Except BuildError BState :=
  match ctx.loadImage path with
  | Except.error e => Except.error (BuildError.loadImage e)
  | Except.ok image =>
    Except.ok (pushOperations
      [RenderOperation.renderImage image,
       RenderOperation.setColors st.theme.defaultStyle.colors] st)

/-- Display width of a string.  The source measures unicode display width
via an external crate; for the pure-ASCII payloads the claims touch this is
the character count. -/
def strWidth (s : String) : Nat := s.length

/-- `Text::width`: sum of its chunks' widths. -/
def Text.width (text : Text) : Nat :=
  (text.chunks.map fun chunk => strWidth chunk.text).sum

/-- `push_block_quote` (builder.rs lines 430-448): quote colors, one
preformatted line per quote line (prefixed), then default colors again. -/
def pushBlockQuote (lines : List String) (st : BState) : BState :=
  let p := st.theme.blockQuote.prefixGlyph.getD ""
  let blockLength := ((lines.map fun line => strWidth line + strWidth p).max?).getD 0
  let st := pushOperations [RenderOperation.setColors st.theme.blockQuote.colors] st
  let st := lines.foldl
    (fun st line =>
      let line := p ++ line
      let st := pushOperations
        [RenderOperation.renderPreformattedLine
          { text := line, unformattedLength := strWidth line, blockLength,
            alignment := st.theme.alignment ElementType.blockQuote }] st
      pushLineBreak st)
    st
  pushOperations [RenderOperation.setColors st.theme.defaultStyle.colors] st

/-! ## Code block preparation (`CodePreparer`, builder.rs lines 608-677) -/

/-- A prepared code line before highlighting (builder.rs `CodeLine`). -/
structure CodeLine where
  prefixText : String
  code : String
  suffix : String
  lineNumber : Option Nat
  deriving DecidableEq, Repr

/-- `CodeLine::empty` (builder.rs lines 661-663). -/
def CodeLine.empty : CodeLine :=
  { prefixText := "", code := "\n", suffix := "", lineNumber := none }

/-- `CodeLine::width` (builder.rs lines 665-667). -/
def CodeLine.width (line : CodeLine) : Nat :=
  strWidth line.prefixText + strWidth line.code + strWidth line.suffix

/-- `CodePreparer::push_lines` (builder.rs lines 627-650): pad each line,
optionally prefix right-aligned line numbers (padded to the width of the
largest line number, via `ilog10`), and keep the 1-based line number. -/
def codePreparerPushLines (theme : PresentationTheme) (code : Code) : List CodeLine :=
  if code.contents = "" then []
  else
    let horizontalPadding := theme.code.paddingHorizontal.getD 0
    let padding := "".pushn ' ' horizontalPadding
    let contentLines := rustLines code.contents
    let totalLinesWidth := Nat.log 10 contentLines.length
    (contentLines.enum).map fun (index, line) =>
      let prefixText :=
        if code.attributes.lineNumbers then
          let lineNumber := index + 1
          let lineNumberWidth := Nat.log 10 lineNumber
          let numberPadding := totalLinesWidth - lineNumberWidth
          padding ++ "".pushn ' ' numberPadding ++ toString lineNumber ++ " "
        else padding
      { prefixText, code := line ++ "\n", suffix := padding, lineNumber := some (index + 1) }

/-- `CodePreparer::prepare` (builder.rs lines 613-625): vertical padding
adds an empty line above and below. -/
def codePreparerPrepare (theme : PresentationTheme) (code : Code) : List CodeLine :=
  let verticalPadding := theme.code.paddingVertical.getD 0
  let lines := if 0 < verticalPadding then [CodeLine.empty] else []
  let lines := lines ++ codePreparerPushLines theme code
  if 0 < verticalPadding then lines ++ [CodeLine.empty] else lines

/-- `highlight_lines` (builder.rs lines 486-516): prepare the lines, build
the shared highlight context (one synthesized all-lines group when
mutations are disabled), and produce both highlighted and plain renderings
of every line through the external highlighter. -/
def highlightLines (ctx : BuilderCtx) (st : BState) (code : Code) :
    List HighlightedLineData × HighlightContext :=
  let lines := codePreparerPrepare st.theme code
  let blockLength := ((lines.map CodeLine.width).max?).getD 0
  let groups :=
    if st.options.allowMutations then code.attributes.highlightGroups
    else [HighlightGroup.mk [Highlight.all]]
  let context : HighlightContext :=
    { groups, current := 0, blockLength, alignment := st.theme.alignment ElementType.code }
  let output := lines.map fun line =>
    { highlighted := ctx.highlightCodeLine st.highlighter code.language (line.prefixText ++ line.code ++ line.suffix),
      notHighlighted := ctx.highlightCodeLine st.highlighter CodeLanguage.unknown (line.prefixText ++ line.code ++ line.suffix),
      lineNumber := line.lineNumber,
      width := line.width : HighlightedLineData }
  (output, context)

/-- `push_code_execution` (builder.rs lines 518-526). -/
def pushCodeExecution (code : Code) (st : BState) : BState :=
  pushOperations
    [RenderOperation.renderOnDemand
      { code, defaultColors := st.theme.defaultStyle.colors,
        blockColors := st.theme.executionOutput.colors }] st

/-- `push_code` (builder.rs lines 473-484): one dynamic operation per line,
a highlight mutator when more than one group exists and mutations are
allowed, and an on-demand execution operation for executable blocks. -/
def pushCode (ctx : BuilderCtx) (code : Code) (st : BState) : BState :=
  let (lines, context) := highlightLines ctx st code
  let st := st |> pushOperations
    (lines.map fun line => RenderOperation.renderDynamic (DynamicContent.highlightedLine line))
  let st :=
    if st.options.allowMutations && 1 < context.groups.length then
      { st with chunkMutators := st.chunkMutators ++ [context] }
    else st
  if code.attributes.execute then pushCodeExecution code st else st

/-! ## Lists, tables, intro slide -/

/-- `push_list_item` (builder.rs lines 397-428): indent by depth, add the
bullet or ordinal prefix, push the item contents aligned past the prefix,
and remember the index of depth-0 items for continuation. -/
def pushListItem (index : Nat) (item : ListItem) (st : BState) : BState :=
  let paddingLength := (item.depth + 1) * 3
  let prefixText := "".pushn ' ' paddingLength
  let prefixText :=
    match item.itemType with
    | ListItemType.unordered =>
      let delimiter : Char := if item.depth = 0 then '•' else if item.depth = 1 then '◦' else '▪'
      prefixText.push delimiter
    | ListItemType.orderedParens => prefixText ++ toString (index + 1) ++ ") "
    | ListItemType.orderedPeriod => prefixText ++ toString (index + 1) ++ ". "
  let prefixLength := strWidth prefixText
  let st := pushText (Text.ofString prefixText) ElementType.list st
  let st := pushAlignedText item.contents (Alignment.left (Margin.fixed prefixLength)) st
  let st := pushLineBreak st
  if item.depth = 0 then
    { st with slideState := { st.slideState with lastElement := LastElement.list index } }
  else st

/-- The pop step of `push_list` (builder.rs lines 376-384): when the last
sealed chunk ends in a line break, that chunk ended inside a list, and the
current chunk is still empty, drop that trailing break so consecutive list
fragments render contiguously. -/
def listContinuationPop (st : BState) : BState :=
  match st.slideChunks.getLast? with
  | some lastChunk =>
    if lastChunk.operations.getLast? = some RenderOperation.renderLineBreak
        && st.slideState.lastChunkEndedInList && st.chunkOperations.isEmpty then
      { st with slideChunks := st.slideChunks.dropLast ++ [lastChunk.popLast] }
    else st
  | none => st

/-- The starting index of `push_list` (builder.rs lines 386-389): pick up
from the remembered depth-0 index plus one when the chunk just started
because of a pause, else start at 0. -/
def listStartIndex (st : BState) : Nat :=
  match st.slideState.lastElement with
  | LastElement.list lastIndex => if st.chunkOperations.isEmpty then lastIndex + 1 else 0
  | LastElement.any => 0

/-- `push_list` (builder.rs lines 375-395). -/
def pushList (items : List ListItem) (st : BState) : BState :=
  let st := listContinuationPop st
  let startIndex := listStartIndex st
  (ListIterator.run (ListIterator.new startIndex) items).foldl
    (fun st indexed => pushListItem indexed.index indexed.item st) st

/-- `Table::columns` (markdown/elements.rs): the header's column count. -/
def Table.columns (table : Table) : Nat := table.header.cells.length

/-- `Table::iter_column` (markdown/elements.rs): the header cell then every
row's cell of one column. -/
def Table.iterColumn (table : Table) (column : Nat) : List Text :=
  (table.header :: table.rows).map fun row => row.cells.getD column ⟨[]⟩

/-- `prepare_table_row` (builder.rs lines 589-605): join cells with a
`" │ "` separator and right-pad each cell to its column width. -/
def prepareTableRow (row : TableRow) (widths : List Nat) : Text :=
  ⟨(row.cells.enum).flatMap fun (column, text) =>
    let separatorChunks := if 0 < column then [StyledText.ofString " │ "] else []
    let textLength := text.width
    let cellWidth := widths.getD column 0
    let paddingChunks :=
      if textLength < cellWidth then [StyledText.ofString ("".pushn ' ' (cellWidth - textLength))]
      else []
    separatorChunks ++ text.chunks ++ paddingChunks⟩

/-- The separator row of `push_table` (builder.rs lines 564-577): box-drawing
dashes per column, a `┼` between columns, and one extra filler dash only for
interior separators. -/
def tableSeparatorRow (widths : List Nat) : Text :=
  ⟨(widths.enum).map fun (index, width) =>
    let contents := if 0 < index then "┼" else ""
    let margin := if 0 < index && index < widths.length - 1 then 2 else 1
    StyledText.ofString (contents ++ String.join (List.replicate (width + margin) "─"))⟩

/-- `push_table` (builder.rs lines 556-587): compute column widths as the
maximum cell width per column, then push header, separator and data rows. -/
def pushTable (table : Table) (st : BState) : BState :=
  let widths := (List.range table.columns).map fun column =>
    (((table.iterColumn column).map Text.width).max?).getD 0
  let st := pushText (prepareTableRow table.header widths) ElementType.table st
  let st := pushLineBreak st
  let st := pushText (tableSeparatorRow widths) ElementType.table st
  let st := pushLineBreak st
  table.rows.foldl
    (fun st row => pushLineBreak (pushText (prepareTableRow row widths) ElementType.table st))
    st

/-! ## Slide lifecycle: pause, termination, footer (builder.rs lines
299-305, 528-554) -/

/-- `generate_footer` (builder.rs lines 541-554): exit any layout, pop the
margin, then the lazily evaluated footer generator for this slide. -/
def generateFooter (st : BState) : List RenderOperation :=
  [RenderOperation.exitLayout,
   RenderOperation.popMargin,
   RenderOperation.renderDynamic
     (DynamicContent.footerGenerator
       { currentSlide := st.slides.length, style := st.theme.footer })]

/-- `process_pause` (builder.rs lines 299-305): remember whether the chunk
ended inside a depth-0 list item, seal the chunk, and start a new one. -/
def processPause (st : BState) : BState :=
  let endedInList :=
    match st.slideState.lastElement with
    | LastElement.list _ => true
    | LastElement.any => false
  { st with
    slideState := { st.slideState with lastChunkEndedInList := endedInList },
    slideChunks :=
      st.slideChunks ++ [{ operations := st.chunkOperations, mutators := st.chunkMutators }],
    chunkOperations := [],
    chunkMutators := [] }

/-- `terminate_slide` (builder.rs lines 528-539): seal the chunk, attach the
footer, emit the slide, start the next slide's prelude, and reset all
per-slide state. -/
def terminateSlide (st : BState) : BState :=
  let footer := generateFooter st
  let chunks :=
    st.slideChunks ++ [{ operations := st.chunkOperations, mutators := st.chunkMutators }]
  let st :=
    { st with
      slideChunks := [], chunkOperations := [], chunkMutators := [],
      slides := st.slides ++ [{ chunks, footer }] }
  let st := pushSlidePrelude st
  { st with slideState := {} }

/-! ## Front matter (builder.rs lines 158-236) -/

/-- `push_intro_slide` (builder.rs lines 201-236). -/
def pushIntroSlide (metadata : PresentationMetadata) (st : BState) : BState :=
  let styles := st.theme.introSlide
  let title : StyledText :=
    { text := metadata.title.getD "", style := { bold := true, colors := styles.titleColors } }
  let subTitle := metadata.subTitle.map fun text =>
    ({ text, style := { colors := styles.subtitleColors } } : StyledText)
  let author := metadata.author.map fun text =>
    ({ text, style := { colors := styles.authorColors } } : StyledText)
  let st := pushOperations [RenderOperation.jumpToVerticalCenter] st
  let st := pushText ⟨[title]⟩ ElementType.presentationTitle st
  let st := pushLineBreak st
  let st :=
    match subTitle with
    | some text => pushLineBreak (pushText ⟨[text]⟩ ElementType.presentationSubTitle st)
    | none => st
  let st :=
    match author with
    | some text =>
      let st :=
        match styles.authorPositioning with
        | AuthorPositioning.belowTitle => pushLineBreaks 3 st
        | AuthorPositioning.pageBottom =>
          pushOperations [RenderOperation.jumpToBottomRow 0] st
      pushText ⟨[text]⟩ ElementType.presentationAuthor st
    | none => st
  terminateSlide st

/-- `set_theme` (builder.rs lines 171-191): name and path conflict is an
error; resolve by name, then by path, then merge overrides, in order. -/
def setTheme (ctx : BuilderCtx) (metadata : PresentationThemeMetadata) (st : BState) :
    Except BuildError BState :=
  if metadata.name.isSome && metadata.path.isSome then
    Except.error (BuildError.invalidMetadata "cannot have both theme path and theme name")
  else
    let step1 : Except BuildError BState :=
      match metadata.name with
      | some themeName =>
        match ctx.themeFromName themeName with
        | none => Except.error (BuildError.invalidMetadata s!"theme {themeName} does not exist")
        | some theme => Except.ok { st with theme }
      | none => Except.ok st
    match step1 with
    | Except.error e => Except.error e
    | Except.ok st =>
      let step2 : Except BuildError BState :=
        match metadata.path with
        | some themePath =>
          match ctx.loadThemeFile themePath with
          | Except.error e => Except.error (BuildError.invalidTheme e)
          | Except.ok theme => Except.ok { st with theme }
        | none => Except.ok st
      match step2 with
      | Except.error e => Except.error e
      | Except.ok st =>
        match metadata.overrides with
        | some overrides =>
          match ctx.mergeThemeOverrides st.theme overrides with
          | Except.error e => Except.error (BuildError.invalidMetadata s!"invalid theme: {e}")
          | Except.ok theme => Except.ok { st with theme }
        | none => Except.ok st

/-- `process_front_matter` (builder.rs lines 158-169): parse the metadata,
record the author for footers, set the theme, and synthesize an intro slide
when a title, subtitle or author is present. -/
def processFrontMatter (ctx : BuilderCtx) (contents : String) (st : BState) :
    Except BuildError BState :=
  match ctx.parseMetadata contents with
  | Except.error e => Except.error (BuildError.invalidMetadata e)
  | Except.ok metadata =>
    let st := { st with footerAuthor := metadata.author.getD "" }
    match setTheme ctx metadata.theme st with
    | Except.error e => Except.error e
    | Except.ok st =>
      if metadata.title.isSome || metadata.subTitle.isSome || metadata.author.isSome then
        let st := pushSlidePrelude st
        Except.ok (pushIntroSlide metadata st)
      else Except.ok st

/-- `set_code_theme` (builder.rs lines 193-199). -/
def setCodeTheme (ctx : BuilderCtx) (st : BState) : Except BuildError BState :=
  match st.theme.code.themeName with
  | some theme =>
    match ctx.newCodeHighlighter theme with
    | none => Except.error BuildError.invalidCodeTheme
    | some highlighter => Except.ok { st with highlighter }
  | none => Except.ok st

/-! ## Embedded comments (builder.rs lines 238-297) -/

/-- `should_ignore_comment` (builder.rs lines 279-287): multi-line comments
and vim-style fold markers are authoring notes, not commands. -/
def shouldIgnoreComment (comment : String) : Bool :=
  if strContainsChar comment '\n' then true
  else
    let comment := strTrim comment
    comment = "\x7b\x7b\x7b" || comment = "\x7d\x7d\x7d"

/-- `validate_column_layout` (builder.rs lines 289-297). -/
def validateColumnLayout (columns : List Nat) : Except BuildError Unit :=
  if columns.isEmpty then
    Except.error (BuildError.invalidLayout "need at least one column")
  else if columns.any fun column => column = 0 then
    Except.error (BuildError.invalidLayout "can\x27t have zero sized columns")
  else Except.ok ()

/-- `process_comment` (builder.rs lines 238-277): ignore authoring notes,
parse the command (the YAML parsing itself is external, reached through
`ctx.parseCommand`), apply its effect, and suppress the automatic trailing
line break for every command. -/
def processComment (ctx : BuilderCtx) (comment : String) (sourcePosition : SourcePosition)
    (st : BState) : Except BuildError BState :=
  if shouldIgnoreComment comment then Except.ok st
  else
    match ctx.parseCommand comment with
    | Except.error e =>
      Except.error (BuildError.commandParse (sourcePosition.startLine + 1) e)
    | Except.ok command =>
      let applied : Except BuildError BState :=
        match command with
        | CommentCommand.pause => Except.ok (processPause st)
        | CommentCommand.endSlide => Except.ok (terminateSlide st)
        | CommentCommand.initColumnLayout columns =>
          match validateColumnLayout columns with
          | Except.error e => Except.error e
          | Except.ok _ =>
            let st :=
              { st with slideState :=
                  { st.slideState with layout := LayoutState.inLayout columns.length } }
            let st := pushOperations [RenderOperation.initColumnLayout columns] st
            Except.ok
              { st with slideState := { st.slideState with needsEnterColumn := true } }
        | CommentCommand.resetLayout =>
          let st :=
            { st with slideState :=
                { st.slideState with layout := LayoutState.layoutDefault } }
          Except.ok (pushOperations
            [RenderOperation.exitLayout, RenderOperation.renderLineBreak] st)
        | CommentCommand.column column =>
          let info : Except BuildError (Option Nat × Nat) :=
            match st.slideState.layout with
            | LayoutState.inColumn current columnsCount =>
              Except.ok (some current, columnsCount)
            | LayoutState.inLayout columnsCount => Except.ok (none, columnsCount)
            | LayoutState.layoutDefault => Except.error BuildError.noLayout
          match info with
          | Except.error e => Except.error e
          | Except.ok (currentColumn, columnsCount) =>
            if currentColumn = some column then Except.error BuildError.alreadyInColumn
            else if columnsCount ≤ column then Except.error BuildError.columnIndexTooLarge
            else
              let st :=
                { st with slideState :=
                    { st.slideState with layout := LayoutState.inColumn column columnsCount } }
              Except.ok (pushOperations [RenderOperation.enterColumn column] st)
      match applied with
      | Except.error e => Except.error e
      | Except.ok st =>
        Except.ok { st with slideState := { st.slideState with ignoreElementLineBreak := true } }

/-! ## Element dispatch and the build loop (builder.rs lines 80-156) -/

/-- `validate_last_operation` (builder.rs lines 107-120): after a
`column_layout`, the only legal next operation is entering a column or
exiting the layout. -/
def validateLastOperation (st : BState) : Except BuildError BState :=
  if !st.slideState.needsEnterColumn then Except.ok st
  else
    match st.chunkOperations.getLast? with
    | none => Except.ok st
    | some (RenderOperation.initColumnLayout _) => Except.ok st
    | some last =>
      let st := { st with slideState := { st.slideState with needsEnterColumn := false } }
      match last with
      | RenderOperation.enterColumn _ => Except.ok st
      | RenderOperation.exitLayout => Except.ok st
      | _ => Except.error BuildError.notInsideColumn

/-- Whether an element clears the last-element memory (builder.rs line 136:
everything except lists and comments). -/
def shouldClearLast : MarkdownElement → Bool
  | MarkdownElement.list _ => false
  | MarkdownElement.comment _ _ => false
  | _ => true

/-- `process_element` (builder.rs lines 135-156).  In-loop front matter only
suppresses its line break (the metadata itself was consumed before the
loop). -/
def processElement (ctx : BuilderCtx) (element : MarkdownElement) (st : BState) :
    Except BuildError BState :=
  let processed : Except BuildError BState :=
    match element with
    | MarkdownElement.frontMatter _ =>
      Except.ok
        { st with slideState := { st.slideState with ignoreElementLineBreak := true } }
    | MarkdownElement.setexHeading text => Except.ok (pushSlideTitle text st)
    | MarkdownElement.heading level text => pushHeading level text st
    | MarkdownElement.paragraph elements => Except.ok (pushParagraph elements st)
    | MarkdownElement.list elements => Except.ok (pushList elements st)
    | MarkdownElement.code code => Except.ok (pushCode ctx code st)
    | MarkdownElement.table table => Except.ok (pushTable table st)
    | MarkdownElement.thematicBreak => Except.ok (pushSeparator st)
    | MarkdownElement.comment comment sourcePosition =>
      processComment ctx comment sourcePosition st
    | MarkdownElement.blockQuote lines => Except.ok (pushBlockQuote lines st)
    | MarkdownElement.image path => pushImage ctx path st
  match processed with
  | Except.error e => Except.error e
  | Except.ok st =>
    if shouldClearLast element then
      Except.ok { st with slideState := { st.slideState with lastElement := LastElement.any } }
    else Except.ok st

/-- The body of the build loop for one element (builder.rs lines 90-97):
reset the suppression flag, process, validate, then push the automatic
trailing line break unless suppressed. -/
def processLoopBody (ctx : BuilderCtx) (element : MarkdownElement) (st : BState) :
    Except BuildError BState :=
  let st := { st with slideState := { st.slideState with ignoreElementLineBreak := false } }
  match processElement ctx element st with
  | Except.error e => Except.error e
  | Except.ok st =>
    match validateLastOperation st with
    | Except.error e => Except.error e
    | Except.ok st =>
      if !st.slideState.ignoreElementLineBreak then Except.ok (pushLineBreak st)
      else Except.ok st

/-- The build loop over all elements. -/
def processElements (ctx : BuilderCtx) : List MarkdownElement → BState →
    Except BuildError BState
  | [], st => Except.ok st
  | element :: rest, st =>
    match processLoopBody ctx element st with
    | Except.error e => Except.error e
    | Except.ok st => processElements ctx rest st

/-- `PresentationBuilder::build` (builder.rs lines 81-105): consume leading
front matter, set the code theme, push the first prelude, process every
element, terminate the trailing slide, and wrap the slides into a
presentation.  (The footer context's `total_slides` is resolved at render
time and is not part of the built value.) -/
def build (ctx : BuilderCtx) (theme : PresentationTheme)
    (options : PresentationBuilderOptions) (elements : List MarkdownElement) :
    Except BuildError Presentation :=
  let st : BState := { theme, options }
  let afterFrontMatter : Except BuildError BState :=
    match elements.head? with
    | some (MarkdownElement.frontMatter contents) => processFrontMatter ctx contents st
    | _ => Except.ok st
  match afterFrontMatter with
  | Except.error e => Except.error e
  | Except.ok st =>
    match setCodeTheme ctx st with
    | Except.error e => Except.error e
    | Except.ok st =>
      let st := if st.chunkOperations.isEmpty then pushSlidePrelude st else st
      match processElements ctx elements st with
      | Except.error e => Except.error e
      | Except.ok st =>
        let st :=
          if !st.chunkOperations.isEmpty || !st.slideChunks.isEmpty then terminateSlide st
          else st
        Except.ok (Presentation.new st.slides)

/-! ## Test-suite observation helpers (builder.rs test module, in `src`) -/

/-- `is_visible` (builder.rs test module): which operations paint anything. -/
def isVisible : RenderOperation → Bool
  | RenderOperation.clearScreen => false
  | RenderOperation.setColors _ => false
  | RenderOperation.jumpToVerticalCenter => false
  | RenderOperation.jumpToBottomRow _ => false
  | RenderOperation.initColumnLayout _ => false
  | RenderOperation.enterColumn _ => false
  | RenderOperation.exitLayout => false
  | RenderOperation.applyMargin _ => false
  | RenderOperation.popMargin => false
  | RenderOperation.renderText _ _ => true
  | RenderOperation.renderLineBreak => true
  | RenderOperation.renderImage _ => true
  | RenderOperation.renderPreformattedLine _ => true
  | RenderOperation.renderDynamic _ => true
  | RenderOperation.renderOnDemand _ => true

/-- The accumulator loop of `extract_text_lines` (builder.rs test module):
flatten `RenderText` runs, breaking on line breaks, skipping empty lines. -/
def extractTextLinesGo (current : String) : List RenderOperation → List String
  | [] => if current = "" then [] else [current]
  | op :: rest =>
    match op with
    | RenderOperation.renderText line _ =>
      extractTextLinesGo (current ++ String.join (line.map StyledText.text)) rest
    | RenderOperation.renderLineBreak =>
      if current = "" then extractTextLinesGo current rest
      else current :: extractTextLinesGo "" rest
    | _ => extractTextLinesGo current rest

/-- `extract_text_lines` (builder.rs test module). -/
def extractTextLines (operations : List RenderOperation) : List String :=
  extractTextLinesGo "" operations

/-- `extract_slide_text_lines` (builder.rs test module). -/
def extractSlideTextLines (slide : Slide) : List String :=
  extractTextLines (slide.intoOperations.filter isVisible)

/-! ## Concrete instances of the external collaborators, mirroring what the
builder's own test suite feeds it. -/

/-- A concrete embedded-command parser agreeing with serde_yaml on the
command strings the examples use. -/
def exampleParseCommand (s : String) : Except String CommentCommand :=
  let s := strTrim s
  if s = "pause" then Except.ok CommentCommand.pause
  else if s = "end_slide" then Except.ok CommentCommand.endSlide
  else if s = "reset_layout" then Except.ok CommentCommand.resetLayout
  else if s = "column_layout: []" then Except.ok (CommentCommand.initColumnLayout [])
  else if s = "column_layout: [0]" then Except.ok (CommentCommand.initColumnLayout [0])
  else if s = "column_layout: [1, 0]" then Except.ok (CommentCommand.initColumnLayout [1, 0])
  else if s = "column_layout: [1]" then Except.ok (CommentCommand.initColumnLayout [1])
  else if s = "column_layout: [2, 1]" then Except.ok (CommentCommand.initColumnLayout [2, 1])
  else if s = "column: 0" then Except.ok (CommentCommand.column 0)
  else if s = "column: 1" then Except.ok (CommentCommand.column 1)
  else Except.error "invalid type"

/-- A concrete external-collaborator bundle for closed examples. -/
def exampleCtx : BuilderCtx :=
  { parseMetadata := fun s =>
      if s = "author: bob" then Except.ok { author := some "bob" }
      else Except.error "invalid metadata",
    themeFromName := fun _ => none,
    loadThemeFile := fun _ => Except.error "could not load theme",
    mergeThemeOverrides := fun theme _ => Except.ok theme,
    newCodeHighlighter := fun name => some { themeName := name },
    loadImage := fun path => Except.ok { path },
    parseCommand := exampleParseCommand,
    highlightCodeLine := fun _ _ line => line }

/-- The default theme used by closed examples; all optional decorations are
off, matching a plain theme. -/
def plainTheme : PresentationTheme := {}

/-- An ordered (period) list item, as in the builder's test suite. -/
def pitem (depth : Nat) (contents : String) : ListItem :=
  { depth, contents := Text.ofString contents, itemType := ListItemType.orderedPeriod }

/-- The `ordered_list_with_pauses` input (builder.rs test module). -/
def orderedListWithPausesElements : List MarkdownElement :=
  [MarkdownElement.list [pitem 0 "one", pitem 1 "one_one", pitem 1 "one_two"],
   MarkdownElement.comment "pause" {},
   MarkdownElement.list [pitem 0 "two"]]

/-! ## Session controller (presenter.rs) -/

/-- Presentation mode (presenter.rs `PresentMode`). -/
inductive PresentMode where
  | development
  | presentation
  | export
  deriving DecidableEq, Repr

/-- The first point of divergence reported by the external presentation
differ (diff.rs is outside the core; the spec says the core only consumes
this single query). -/
structure Modification where
  slideIndex : Nat
  chunkIndex : Nat
  deriving DecidableEq, Repr

/-- Session controller state (presenter.rs `PresenterState`): empty,
presenting, or failed while retaining the last good presentation. -/
inductive PresenterState where
  | empty
  | presenting (presentation : Presentation)
  | failure (error : String) (presentation : Presentation)
  deriving DecidableEq, Repr

/-- `PresenterState::presentation` / `into_presentation` (presenter.rs lines
217-239): the held presentation; `none` models the `panic!` on `Empty`. -/
def PresenterState.presentationOf : PresenterState → Option Presentation
  | PresenterState.empty => none
  | PresenterState.presenting presentation => some presentation
  | PresenterState.failure _ presentation => some presentation

/-- `Presenter::try_reload` (presenter.rs lines 155-177): skip in
presentation mode; on a successful recompile, jump to the differ's first
divergence point or restore the previous cursor, then adopt the new
presentation; on failure, keep the previous presentation under a failure
banner.  The recompile outcome and the differ are external inputs here
(`loadResult`, `findFirstModification`); the pending-widget bookkeeping
carries no cursor state and is omitted.  `none` models the `panic!` on an
empty presenter state. -/
def tryReload (mode : PresentMode) (loadResult : Except String Presentation)
    (findFirstModification : Presentation → Presentation → Option Modification)
    (state : PresenterState) : Option PresenterState :=
  if mode = PresentMode.presentation then some state
  else
    match loadResult with
    | Except.ok presentation =>
      match state.presentationOf with
      | none => none
      | some current =>
        let presentation :=
          match findFirstModification current presentation with
          | some modification =>
            (presentation.jumpSlide modification.slideIndex).jumpChunk modification.chunkIndex
          | none =>
            (presentation.jumpSlide current.currentSlide).jumpChunk current.currentChunk
        some (PresenterState.presenting presentation)
    | Except.error e =>
      match state.presentationOf with
      | none => none
      | some presentation => some (PresenterState.failure e presentation)

/-- Whether an operation clears the screen. -/
def isClearScreenOp : RenderOperation → Bool
  | RenderOperation.clearScreen => true
  | _ => false

/-- Whether an operation sets colors. -/
def isSetColorsOp : RenderOperation → Bool
  | RenderOperation.setColors _ => true
  | _ => false

/-- All operations accumulated toward the slide currently under
construction: the sealed chunks followed by the open chunk. -/
def accOps (st : BState) : List RenderOperation :=
  (st.slideChunks.flatMap SlideChunk.operations) ++ st.chunkOperations

/-- Clear-screen operations accumulated toward the current slide. -/
def accClear (st : BState) : Nat := (accOps st).countP isClearScreenOp

/-- Color-set operations accumulated toward the current slide. -/
def accColors (st : BState) : Nat := (accOps st).countP isSetColorsOp

/-- The element kinds whose processing pushes color-set operations beyond
the slide prelude: block quotes (two) and images (one). -/
def addsExtraColors : MarkdownElement → Bool
  | MarkdownElement.blockQuote _ => true
  | MarkdownElement.image _ => true
  | _ => false

/-- A slide carrying exactly one clear-screen and at least one color-set
operation. -/
def slideOk (slide : Slide) : Prop :=
  slide.intoOperations.countP isClearScreenOp = 1
    ∧ 1 ≤ slide.intoOperations.countP isSetColorsOp

/-- A slide carrying exactly one clear-screen and exactly one color-set
operation. -/
def slideOkEq (slide : Slide) : Prop :=
  slide.intoOperations.countP isClearScreenOp = 1
    ∧ slide.intoOperations.countP isSetColorsOp = 1

/-- Invariant carried through the build loop: the operations accumulated
toward the current slide hold exactly one clear-screen and at least one
color-set, and every completed slide satisfies `slideOk`. -/
def buildInv (st : BState) : Prop :=
  (accClear st = 1 ∧ 1 ≤ accColors st) ∧ ∀ slide ∈ st.slides, slideOk slide

/-- The strict variant of `buildInv`: exactly one color-set everywhere. -/
def buildInvEq (st : BState) : Prop :=
  (accClear st = 1 ∧ accColors st = 1) ∧ ∀ slide ∈ st.slides, slideOkEq slide

/-- One build step neither adding nor removing clear-screen or color-set
operations, and leaving the completed slides alone. -/
def countsKept (st st' : BState) : Prop :=
  accClear st' = accClear st ∧ accColors st' = accColors st ∧ st'.slides = st.slides

/-- One build step preserving clear-screens and completed slides but
possibly adding color-sets. -/
def countsMono (st st' : BState) : Prop :=
  accClear st' = accClear st ∧ accColors st ≤ accColors st' ∧ st'.slides = st.slides

/-- The elements for which the builder suppresses the automatic trailing
line break: front matter, setex headings (slide titles), and embedded
comments that are not ignored authoring notes. -/
def suppressesLineBreak : MarkdownElement → Bool
  | MarkdownElement.frontMatter _ => true
  | MarkdownElement.setexHeading _ => true
  | MarkdownElement.comment comment _ => !shouldIgnoreComment comment
  | _ => false

/-! ## Theorems about the list iterator, the reveal engine, and on-demand execution -/

lemma popSaved_eq_specPopPerLevel (levels : Nat) :
    ∀ (stack : List Nat) (current : Nat),
      ListIterator.popSaved levels stack current = specPopPerLevel levels stack current := by
  induction levels with
  | zero => intro stack current; rfl
  | succ n ih =>
    intro stack current
    cases stack with
    | nil => simp [ListIterator.popSaved, specPopPerLevel, ih]
    | cons top rest => simp [ListIterator.popSaved, specPopPerLevel, ih]

lemma run_indexes_eq_spec (items : List ListItem) :
    ∀ (nextIndex : Nat) (stack : List Nat) (depth : Nat),
      (ListIterator.run { nextIndex, currentDepth := depth, savedIndexes := stack } items).map
          IndexedListItem.index
        = specAssignIndexes nextIndex stack depth items := by
  induction items with
  | nil => intro nextIndex stack depth; rfl
  | cons item rest ih =>
    intro nextIndex stack depth
    by_cases hEq : item.depth = depth
    · subst hEq
      simp [ListIterator.run, ListIterator.next, specAssignIndexes, ih]
    · rcases Nat.lt_or_ge depth item.depth with hLt | hGe
      · have h1 : ¬ item.depth = depth := hEq
        simp only [ListIterator.run, ListIterator.next, specAssignIndexes]
        rw [if_neg h1, if_pos hLt, if_pos hLt]
        simp [ih]
      · have hGt : item.depth < depth := lt_of_le_of_ne hGe hEq
        have h1 : ¬ item.depth = depth := hEq
        have h2 : ¬ depth < item.depth := not_lt_of_ge hGe
        simp only [ListIterator.run, ListIterator.next, specAssignIndexes]
        rw [if_neg h1, if_neg h2, if_neg h2, if_pos hGt]
        rw [popSaved_eq_specPopPerLevel]
        cases hp : specPopPerLevel (depth - item.depth) stack nextIndex with
        | mk recovered stack' => simp [ih]

/-- Claim C1: the list numbering iterator assigns indices by maintaining a
`next_index` and a per-depth stack of saved indices — pushing and resetting
on a depth increase, popping once per level (default 0) on a decrease, and
consuming/incrementing `next_index` per emitted item; in particular depths
`[0,0,1,1,1,2,0]` receive indices `[0,1,0,1,2,0,2]` and an engine started at
index 3 over two depth-0 items yields `[3,4]`. -/
theorem list_iterator_assigns_spec_indexes :
    (∀ (start : Nat) (items : List ListItem),
        listIndexes start items = specAssignIndexes start [] 0 items)
      ∧ listIndexes 0
          [uitem 0, uitem 0, uitem 1, uitem 1, uitem 1, uitem 2, uitem 0]
          = [0, 1, 0, 1, 2, 0, 2]
      ∧ listIndexes 3 [uitem 0, uitem 0] = [3, 4] := by
  refine ⟨fun start items => ?_, by decide, by decide⟩
  unfold listIndexes ListIterator.new
  exact run_indexes_eq_spec items start [] 0

lemma run_length (items : List ListItem) :
    ∀ st : ListIterator, (ListIterator.run st items).length = items.length := by
  induction items with
  | nil => intro st; rfl
  | cons item rest ih =>
    intro st
    simp [ListIterator.run, ih]

/-- Claim C9: the numbering iterator is total on every input — even a
malformed sequence that descends more levels than it ever ascended — because
an exhausted saved-index stack falls back to index 0: it emits exactly one
indexed item per input item, a pop beyond the stack always recovers 0, and
the concrete malformed input `[depth 2, depth 0]` started at 5 yields
indices `[0, 0]` instead of panicking. -/
theorem list_iterator_never_panics :
    (∀ (start : Nat) (items : List ListItem),
        (ListIterator.run (ListIterator.new start) items).length = items.length)
      ∧ (∀ (levels current : Nat), 1 ≤ levels →
          ListIterator.popSaved levels [] current = (0, []))
      ∧ listIndexes 5 [uitem 2, uitem 0] = [0, 0] := by
  refine ⟨fun start items => run_length items _, ?_, by decide⟩
  intro levels current h
  induction levels with
  | zero => omega
  | succ n ih =>
    cases n with
    | zero => rfl
    | succ m =>
      have := ih (by omega)
      simpa [ListIterator.popSaved] using this

/-- Witness for C9 at a concrete input: the hypothesis `1 ≤ levels` is
discharged at `levels = 2`. -/
theorem list_iterator_never_panics_witness :
    ListIterator.popSaved 2 [] 7 = (0, []) :=
  list_iterator_never_panics.2.1 2 7 (by decide)

/-- Claim C7: over a highlight context with at least one group, `advance`
moves `current` forward by one unless already at the last group (returning
whether it moved), `retreat` moves backward unless at 0, `reset` lands on 0
from any reachable state, `jump_to_end` lands on the last group, and jumping
to the end followed by one retreat lands on the second-to-last group (or
stays at 0 when only one group exists, with the retreat reporting no move). -/
theorem highlight_mutator_contract (context : HighlightContext)
    (hGroups : 1 ≤ context.groups.length) (_hCur : context.current < context.groups.length) :
    ((HighlightMutator.mutateNext context).1 = (context.current ≠ context.groups.length - 1)
        ∧ (HighlightMutator.mutateNext context).2.current
            = (if context.current = context.groups.length - 1 then context.current
               else context.current + 1))
      ∧ ((HighlightMutator.mutatePrevious context).1 = (context.current ≠ 0)
        ∧ (HighlightMutator.mutatePrevious context).2.current = context.current - 1)
      ∧ (HighlightMutator.resetMutations context).current = 0
      ∧ (HighlightMutator.applyAllMutations context).current = context.groups.length - 1
      ∧ (HighlightMutator.mutatePrevious
            (HighlightMutator.applyAllMutations context)).2.current
          = context.groups.length - 2
      ∧ (context.groups.length = 1 →
          (HighlightMutator.mutatePrevious
              (HighlightMutator.applyAllMutations context)).1 = false)
      ∧ HighlightMutator.mutations context = (context.current, context.groups.length) := by
  refine ⟨⟨?_, ?_⟩, ⟨?_, ?_⟩, rfl, rfl, ?_, ?_, rfl⟩
  · by_cases h : context.current = context.groups.length - 1 <;>
      simp [HighlightMutator.mutateNext, h]
  · by_cases h : context.current = context.groups.length - 1 <;>
      simp [HighlightMutator.mutateNext, h]
  · by_cases h : context.current = 0 <;> simp [HighlightMutator.mutatePrevious, h]
  · by_cases h : context.current = 0 <;> simp [HighlightMutator.mutatePrevious, h]
  · by_cases h : context.groups.length - 1 = 0 <;>
      simp [HighlightMutator.applyAllMutations, HighlightMutator.mutatePrevious, h] <;> omega
  · intro h1
    simp [HighlightMutator.applyAllMutations, HighlightMutator.mutatePrevious, h1]

/-- Witness for C7 at a concrete two-group context. -/
theorem highlight_mutator_contract_witness :
    (HighlightMutator.mutateNext
        { groups := [⟨[Highlight.all]⟩, ⟨[Highlight.single 1]⟩], current := 0,
          blockLength := 4, alignment := Alignment.left (Margin.fixed 0) }).2.current = 1 := by
  have h := highlight_mutator_contract
    { groups := [⟨[Highlight.all]⟩, ⟨[Highlight.single 1]⟩], current := 0,
      blockLength := 4, alignment := Alignment.left (Margin.fixed 0) }
    (by decide) (by decide)
  simpa using h.1.2

/-- Claim C8 (per-operation part): `start` is a no-op outside `NotStarted`;
from `NotStarted` a successful spawn stores the handle and moves to
`Rendering`, and a failed spawn stores the error text as the sole output
line and moves directly to the terminal `Rendered` state — in neither case
does it produce a build failure. -/
theorem run_code_start_render_contract (inner : RunCodeOperationInner) :
    (∀ execResult, inner.state ≠ RenderOnDemandState.notStarted →
        RunCodeOperation.startRender execResult inner = (false, inner))
      ∧ (∀ handle, inner.state = RenderOnDemandState.notStarted →
          RunCodeOperation.startRender (Except.ok handle) inner
            = (true, { inner with handle := some handle, state := RenderOnDemandState.rendering }))
      ∧ (∀ e, inner.state = RenderOnDemandState.notStarted →
          RunCodeOperation.startRender (Except.error e) inner
            = (true, { inner with outputLines := [e], state := RenderOnDemandState.rendered })) := by
  refine ⟨fun execResult h => ?_, fun handle h => ?_, fun e h => ?_⟩
  · simp [RunCodeOperation.startRender, h]
  · simp [RunCodeOperation.startRender, h]
  · simp [RunCodeOperation.startRender, h]

/-- Witness for C8: a concrete spawn failure lands in `Rendered` with the
error text as the only output line. -/
theorem run_code_start_render_contract_witness :
    RunCodeOperation.startRender (Except.error "spawn failed") {}
      = (true, { outputLines := ["spawn failed"], state := RenderOnDemandState.rendered }) := by
  have h := (run_code_start_render_contract {}).2.2 "spawn failed" rfl
  simpa using h

/-! ## Preservation lemmas for the element-processing state machine -/

lemma slideState_pushOperations (ops : List RenderOperation) (st : BState) :
    (pushOperations ops st).slideState = st.slideState := rfl

lemma slideState_pushLineBreak (st : BState) :
    (pushLineBreak st).slideState = st.slideState := rfl

lemma slideState_pushLineBreaks (n : Nat) :
    ∀ st : BState, (pushLineBreaks n st).slideState = st.slideState := by
  induction n with
  | zero => intro st; rfl
  | succ m ih => intro st; simpa [pushLineBreaks] using ih (pushLineBreak st)

lemma slideState_foldl {α : Type} {f : BState → α → BState} (l : List α) (st : BState)
    (hf : ∀ (st : BState) (a : α), (f st a).slideState = st.slideState) :
    (l.foldl f st).slideState = st.slideState := by
  induction l generalizing st with
  | nil => rfl
  | cons a rest ih => rw [List.foldl_cons, ih (f st a), hf]

lemma slideState_pushAlignedText (text : Text) (alignment : Alignment) (st : BState) :
    (pushAlignedText text alignment st).slideState = st.slideState := by
  simp only [pushAlignedText]
  split <;> rfl

lemma slideState_pushText (text : Text) (elementType : ElementType) (st : BState) :
    (pushText text elementType st).slideState = st.slideState :=
  slideState_pushAlignedText _ _ _

lemma slideState_pushParagraph (elements : List ParagraphElement) (st : BState) :
    (pushParagraph elements st).slideState = st.slideState := by
  simp only [pushParagraph]
  rw [slideState_foldl]
  intro st a
  cases a with
  | text text => rw [slideState_pushLineBreak, slideState_pushText]
  | lineBreak => rfl

lemma slideState_pushBlockQuote (lines : List String) (st : BState) :
    (pushBlockQuote lines st).slideState = st.slideState := by
  simp only [pushBlockQuote]
  rw [slideState_pushOperations, slideState_foldl, slideState_pushOperations]
  intro st a
  rfl

lemma slideState_pushCode (ctx : BuilderCtx) (code : Code) (st : BState) :
    (pushCode ctx code st).slideState = st.slideState := by
  simp only [pushCode]
  cases highlightLines ctx st code with
  | mk lines context =>
    dsimp only
    split <;> split <;> rfl

lemma slideState_pushTable (table : Table) (st : BState) :
    (pushTable table st).slideState = st.slideState := by
  simp only [pushTable]
  rw [slideState_foldl, slideState_pushLineBreak, slideState_pushText,
    slideState_pushLineBreak, slideState_pushText]
  intro st a
  rw [slideState_pushLineBreak, slideState_pushText]

lemma ignore_pushListItem (index : Nat) (item : ListItem) (st : BState) :
    (pushListItem index item st).slideState.ignoreElementLineBreak
      = st.slideState.ignoreElementLineBreak := by
  simp only [pushListItem]
  split
  · rw [show ∀ x : BState, ({ x with slideState :=
        { x.slideState with lastElement := LastElement.list index } } :
        BState).slideState.ignoreElementLineBreak
        = x.slideState.ignoreElementLineBreak from fun _ => rfl,
      slideState_pushLineBreak, slideState_pushAlignedText, slideState_pushText]
  · rw [slideState_pushLineBreak, slideState_pushAlignedText, slideState_pushText]

lemma slideState_listContinuationPop (st : BState) :
    (listContinuationPop st).slideState = st.slideState := by
  simp only [listContinuationPop]
  split
  · split <;> rfl
  · rfl

lemma ignore_foldl {α : Type} {f : BState → α → BState} (l : List α) (st : BState)
    (hf : ∀ (st : BState) (a : α), (f st a).slideState.ignoreElementLineBreak
      = st.slideState.ignoreElementLineBreak) :
    (l.foldl f st).slideState.ignoreElementLineBreak
      = st.slideState.ignoreElementLineBreak := by
  induction l generalizing st with
  | nil => rfl
  | cons a rest ih => rw [List.foldl_cons, ih (f st a), hf]

lemma ignore_pushList (items : List ListItem) (st : BState) :
    (pushList items st).slideState.ignoreElementLineBreak
      = st.slideState.ignoreElementLineBreak := by
  simp only [pushList]
  rw [ignore_foldl, slideState_listContinuationPop]
  intro st a
  exact ignore_pushListItem _ _ _

lemma processComment_flag (ctx : BuilderCtx) (comment : String) (pos : SourcePosition)
    (st st' : BState) (h : processComment ctx comment pos st = Except.ok st') :
    st'.slideState.ignoreElementLineBreak
      = (if shouldIgnoreComment comment then st.slideState.ignoreElementLineBreak else true) := by
  by_cases hIgn : shouldIgnoreComment comment
  · simp only [processComment, hIgn, if_true] at h
    injection h with h
    subst h
    simp [hIgn]
  · have hIgn' : shouldIgnoreComment comment = false := by simpa using hIgn
    simp only [processComment, hIgn', Bool.false_eq_true, if_false] at h
    cases hp : ctx.parseCommand comment with
    | error e => rw [hp] at h; cases h
    | ok command =>
      rw [hp] at h
      simp only at h
      split at h
      · cases h
      · injection h with h
        subst h
        simp [hIgn']

lemma validateLastOperation_preserves (st st' : BState)
    (h : validateLastOperation st = Except.ok st') :
    st'.chunkOperations = st.chunkOperations
      ∧ st'.slideState.ignoreElementLineBreak = st.slideState.ignoreElementLineBreak
      ∧ st'.slides = st.slides
      ∧ st'.slideChunks = st.slideChunks := by
  unfold validateLastOperation at h
  split at h
  · cases h; exact ⟨rfl, rfl, rfl, rfl⟩
  · split at h
    · cases h; exact ⟨rfl, rfl, rfl, rfl⟩
    · cases h; exact ⟨rfl, rfl, rfl, rfl⟩
    · split at h
      · cases h; exact ⟨rfl, rfl, rfl, rfl⟩
      · cases h; exact ⟨rfl, rfl, rfl, rfl⟩
      · cases h

/-! ## Counting lemmas for the slide prelude invariant -/

lemma countsKept_refl (st : BState) : countsKept st st := ⟨rfl, rfl, rfl⟩

lemma countsKept_trans {a b c : BState} (h1 : countsKept a b) (h2 : countsKept b c) :
    countsKept a c :=
  ⟨h2.1.trans h1.1, h2.2.1.trans h1.2.1, h2.2.2.trans h1.2.2⟩

lemma countsKept_countsMono {a b : BState} (h : countsKept a b) : countsMono a b :=
  ⟨h.1, le_of_eq h.2.1.symm, h.2.2⟩

lemma countsMono_trans {a b c : BState} (h1 : countsMono a b) (h2 : countsMono b c) :
    countsMono a c :=
  ⟨h2.1.trans h1.1, le_trans h1.2.1 h2.2.1, h2.2.2.trans h1.2.2⟩

lemma accOps_pushOperations (ops : List RenderOperation) (st : BState) :
    accOps (pushOperations ops st) = accOps st ++ ops := by
  simp [accOps, pushOperations]

lemma slides_pushOperations (ops : List RenderOperation) (st : BState) :
    (pushOperations ops st).slides = st.slides := rfl

lemma countsKept_pushOperations (ops : List RenderOperation) (st : BState)
    (h0 : ops.countP isClearScreenOp = 0) (h1 : ops.countP isSetColorsOp = 0) :
    countsKept st (pushOperations ops st) := by
  refine ⟨?_, ?_, rfl⟩ <;>
    simp [accClear, accColors, accOps_pushOperations, List.countP_append, h0, h1]

lemma countsMono_pushOperations (ops : List RenderOperation) (st : BState)
    (h0 : ops.countP isClearScreenOp = 0) :
    countsMono st (pushOperations ops st) := by
  refine ⟨?_, ?_, rfl⟩ <;>
    simp [accClear, accColors, accOps_pushOperations, List.countP_append, h0]

lemma countsKept_setSlideState (st : BState) (s : SlideState) :
    countsKept st { st with slideState := s } := ⟨rfl, rfl, rfl⟩

lemma countsKept_setMutators (st : BState) (m : List HighlightContext) :
    countsKept st { st with chunkMutators := m } := ⟨rfl, rfl, rfl⟩

lemma countsKept_pushLineBreak (st : BState) : countsKept st (pushLineBreak st) :=
  countsKept_pushOperations _ _ (by rfl) (by rfl)

lemma countsKept_pushLineBreaks (n : Nat) : ∀ st : BState, countsKept st (pushLineBreaks n st) := by
  induction n with
  | zero => intro st; exact countsKept_refl st
  | succ m ih =>
    intro st
    exact countsKept_trans (countsKept_pushLineBreak st) (ih (pushLineBreak st))

lemma countsKept_pushAlignedText (text : Text) (alignment : Alignment) (st : BState) :
    countsKept st (pushAlignedText text alignment st) := by
  simp only [pushAlignedText]
  split
  · exact countsKept_refl st
  · exact countsKept_pushOperations _ _ (by rfl) (by rfl)

lemma countsKept_pushText (text : Text) (elementType : ElementType) (st : BState) :
    countsKept st (pushText text elementType st) :=
  countsKept_pushAlignedText _ _ _

lemma countsKept_foldl {α : Type} {f : BState → α → BState}
    (hf : ∀ (st : BState) (a : α), countsKept st (f st a)) :
    ∀ (l : List α) (st : BState), countsKept st (l.foldl f st) := by
  intro l
  induction l with
  | nil => intro st; exact countsKept_refl st
  | cons a rest ih =>
    intro st
    exact countsKept_trans (hf st a) (ih (f st a))

lemma countsKept_pushSlideTitle (text : Text) (st : BState) :
    countsKept st (pushSlideTitle text st) := by
  simp only [pushSlideTitle]
  refine countsKept_trans ?_ (countsKept_setSlideState _ _)
  refine countsKept_trans ?_ (countsKept_pushLineBreak _)
  split
  · refine countsKept_trans ?_ (countsKept_pushOperations _ _ (by rfl) (by rfl))
    refine countsKept_trans ?_ (countsKept_pushLineBreaks _ _)
    refine countsKept_trans ?_ (countsKept_pushLineBreak _)
    refine countsKept_trans ?_ (countsKept_pushText _ _ _)
    exact countsKept_pushLineBreaks _ _
  · refine countsKept_trans ?_ (countsKept_pushLineBreaks _ _)
    refine countsKept_trans ?_ (countsKept_pushLineBreak _)
    refine countsKept_trans ?_ (countsKept_pushText _ _ _)
    exact countsKept_pushLineBreaks _ _

lemma countsKept_pushHeading (level : Nat) (text : Text) (st st' : BState)
    (h : pushHeading level text st = Except.ok st') : countsKept st st' := by
  simp only [pushHeading] at h
  cases hs : headingStyleFor st level with
  | error msg => rw [hs] at h; cases h
  | ok pair =>
    rw [hs] at h
    cases pair with
    | mk elementType style =>
      simp only at h
      injection h with h
      subst h
      refine countsKept_trans ?_ (countsKept_pushLineBreak _)
      exact countsKept_pushText _ _ _

lemma countsKept_pushParagraph (elements : List ParagraphElement) (st : BState) :
    countsKept st (pushParagraph elements st) := by
  simp only [pushParagraph]
  refine countsKept_foldl ?_ elements st
  intro st a
  cases a with
  | text text =>
    refine countsKept_trans ?_ (countsKept_pushLineBreak _)
    exact countsKept_pushText _ _ _
  | lineBreak => exact countsKept_refl st

lemma countsKept_pushSeparator (st : BState) : countsKept st (pushSeparator st) :=
  countsKept_pushOperations _ _ (by rfl) (by rfl)

lemma countsKept_pushCode (ctx : BuilderCtx) (code : Code) (st : BState) :
    countsKept st (pushCode ctx code st) := by
  simp only [pushCode]
  cases highlightLines ctx st code with
  | mk lines context =>
    dsimp only
    have h1 : countsKept st (pushOperations
        (lines.map fun line =>
          RenderOperation.renderDynamic (DynamicContent.highlightedLine line)) st) := by
      refine countsKept_pushOperations _ _ ?_ ?_ <;>
        · rw [List.countP_eq_zero]
          intro a ha
          obtain ⟨line, _, rfl⟩ := List.mem_map.mp ha
          simp [isClearScreenOp, isSetColorsOp]
    have hExec : ∀ st2 : BState, countsKept st2 (pushCodeExecution code st2) := fun st2 =>
      countsKept_pushOperations _ _ (by rfl) (by rfl)
    refine countsKept_trans h1 ?_
    generalize pushOperations _ st = st1
    split <;> split <;>
      first
        | exact countsKept_refl _
        | exact countsKept_setMutators _ _
        | (refine countsKept_trans ?_ (hExec _)
           exact countsKept_setMutators _ _)

lemma countsKept_pushListItem (index : Nat) (item : ListItem) (st : BState) :
    countsKept st (pushListItem index item st) := by
  simp only [pushListItem]
  split
  · refine countsKept_trans ?_ (countsKept_setSlideState _ _)
    refine countsKept_trans ?_ (countsKept_pushLineBreak _)
    refine countsKept_trans ?_ (countsKept_pushAlignedText _ _ _)
    exact countsKept_pushText _ _ _
  · refine countsKept_trans ?_ (countsKept_pushLineBreak _)
    refine countsKept_trans ?_ (countsKept_pushAlignedText _ _ _)
    exact countsKept_pushText _ _ _

lemma dropLast_append_of_getLast? {α : Type} (l : List α) (x : α)
    (h : l.getLast? = some x) : l.dropLast ++ [x] = l := by
  cases l with
  | nil => cases h
  | cons a rest =>
    have hne : a :: rest ≠ ([] : List α) := by simp
    have := List.getLast?_eq_getLast (a :: rest) hne
    rw [this] at h
    injection h with h
    rw [← h]
    exact List.dropLast_append_getLast hne

lemma countP_dropLast_of_getLast_break (ops : List RenderOperation)
    (h : ops.getLast? = some RenderOperation.renderLineBreak)
    (p : RenderOperation → Bool) (hp : p RenderOperation.renderLineBreak = false) :
    ops.dropLast.countP p = ops.countP p := by
  conv_rhs => rw [← dropLast_append_of_getLast? ops _ h]
  simp [List.countP_append, List.countP_cons, hp]

lemma countsKept_listContinuationPop (st : BState) :
    countsKept st (listContinuationPop st) := by
  simp only [listContinuationPop]
  split
  · rename_i lastChunk hLast
    split
    · rename_i hCond
      simp only [Bool.and_eq_true, decide_eq_true_eq] at hCond
      obtain ⟨⟨hBreak, _⟩, _⟩ := hCond
      have hacc : accOps { st with slideChunks := st.slideChunks.dropLast ++ [lastChunk.popLast] }
          = (st.slideChunks.dropLast.flatMap SlideChunk.operations
              ++ lastChunk.operations.dropLast) ++ st.chunkOperations := by
        simp [accOps, SlideChunk.popLast]
      have hacc' : accOps st
          = (st.slideChunks.dropLast.flatMap SlideChunk.operations
              ++ lastChunk.operations) ++ st.chunkOperations := by
        conv_lhs => rw [accOps, ← dropLast_append_of_getLast? st.slideChunks _ hLast]
        simp
      refine ⟨?_, ?_, rfl⟩ <;>
        · simp only [accClear, accColors, hacc, hacc', List.countP_append]
          rw [countP_dropLast_of_getLast_break _ hBreak _ (by rfl)]
    · exact countsKept_refl st
  · exact countsKept_refl st

lemma countsKept_pushList (items : List ListItem) (st : BState) :
    countsKept st (pushList items st) := by
  simp only [pushList]
  refine countsKept_trans (countsKept_listContinuationPop st) ?_
  exact countsKept_foldl (fun st a => countsKept_pushListItem _ _ _) _ _

lemma countsKept_pushTable (table : Table) (st : BState) :
    countsKept st (pushTable table st) := by
  simp only [pushTable]
  refine countsKept_trans ?_ (countsKept_foldl ?_ _ _)
  · refine countsKept_trans ?_ (countsKept_pushLineBreak _)
    refine countsKept_trans ?_ (countsKept_pushText _ _ _)
    refine countsKept_trans ?_ (countsKept_pushLineBreak _)
    exact countsKept_pushText _ _ _
  · intro st a
    refine countsKept_trans ?_ (countsKept_pushLineBreak _)
    exact countsKept_pushText _ _ _

lemma countsMono_pushBlockQuote (lines : List String) (st : BState) :
    countsMono st (pushBlockQuote lines st) := by
  simp only [pushBlockQuote]
  refine countsMono_trans ?_ (countsMono_pushOperations _ _ (by rfl))
  refine countsMono_trans ?_ (countsKept_countsMono (countsKept_foldl ?_ _ _))
  · exact countsMono_pushOperations _ _ (by rfl)
  · intro st a
    refine countsKept_trans ?_ (countsKept_pushLineBreak _)
    exact countsKept_pushOperations _ _ (by rfl) (by rfl)

lemma countsMono_pushImage (ctx : BuilderCtx) (path : String) (st st' : BState)
    (h : pushImage ctx path st = Except.ok st') : countsMono st st' := by
  simp only [pushImage] at h
  cases hi : ctx.loadImage path with
  | error e => rw [hi] at h; cases h
  | ok image =>
    rw [hi] at h
    injection h with h
    subst h
    exact countsMono_pushOperations _ _ (by rfl)

lemma accOps_processPause (st : BState) : accOps (processPause st) = accOps st := by
  simp [accOps, processPause]

lemma countsKept_processPause (st : BState) : countsKept st (processPause st) := by
  refine ⟨?_, ?_, rfl⟩ <;> simp [accClear, accColors, accOps_processPause]

/-! ## The slide-termination step -/

lemma chunkOperations_terminateSlide (st : BState) :
    (terminateSlide st).chunkOperations
      = [RenderOperation.setColors st.theme.defaultStyle.colors,
         RenderOperation.clearScreen,
         RenderOperation.applyMargin
           { horizontalMargin := st.theme.defaultStyle.margin.getD (Margin.fixed 0),
             bottomSlideMargin := 3 },
         RenderOperation.renderLineBreak] := by
  simp [terminateSlide, pushSlidePrelude, pushOperations, pushLineBreak]

lemma accOps_terminateSlide (st : BState) :
    accOps (terminateSlide st) = (terminateSlide st).chunkOperations := by
  simp only [accOps]
  rw [show (terminateSlide st).slideChunks = [] by
    simp [terminateSlide, pushSlidePrelude, pushOperations, pushLineBreak]]
  simp

lemma slides_terminateSlide (st : BState) :
    (terminateSlide st).slides
      = st.slides
        ++ [{ chunks := st.slideChunks
                ++ [{ operations := st.chunkOperations, mutators := st.chunkMutators }],
              footer := generateFooter st }] := by
  simp [terminateSlide, pushSlidePrelude, pushOperations, pushLineBreak]

lemma newSlide_intoOperations (st : BState) :
    (Slide.intoOperations
        { chunks := st.slideChunks
            ++ [{ operations := st.chunkOperations, mutators := st.chunkMutators }],
          footer := generateFooter st })
      = accOps st ++ generateFooter st := by
  simp [Slide.intoOperations, accOps]

lemma terminateSlide_counts (st : BState) :
    accClear (terminateSlide st) = 1 ∧ accColors (terminateSlide st) = 1 := by
  rw [accClear, accColors, accOps_terminateSlide, chunkOperations_terminateSlide]
  constructor <;> rfl

lemma terminateSlide_slideOk (st : BState) :
    ∀ slide ∈ (terminateSlide st).slides,
      (accClear st = 1 ∧ 1 ≤ accColors st) → (∀ s ∈ st.slides, slideOk s) → slideOk slide := by
  intro slide hmem hAcc hSlides
  rw [slides_terminateSlide] at hmem
  rcases List.mem_append.mp hmem with hOld | hNew
  · exact hSlides slide hOld
  · rw [List.mem_singleton] at hNew
    subst hNew
    rw [slideOk, newSlide_intoOperations]
    have h1 := hAcc.1
    have h2 := hAcc.2
    rw [accClear] at h1
    rw [accColors] at h2
    constructor
    · simp only [List.countP_append]
      rw [show (generateFooter st).countP isClearScreenOp = 0 by rfl]
      omega
    · simp only [List.countP_append]
      omega

lemma terminateSlide_slideOkEq (st : BState) :
    ∀ slide ∈ (terminateSlide st).slides,
      (accClear st = 1 ∧ accColors st = 1) → (∀ s ∈ st.slides, slideOkEq s) → slideOkEq slide := by
  intro slide hmem hAcc hSlides
  rw [slides_terminateSlide] at hmem
  rcases List.mem_append.mp hmem with hOld | hNew
  · exact hSlides slide hOld
  · rw [List.mem_singleton] at hNew
    subst hNew
    rw [slideOkEq, newSlide_intoOperations]
    have h1 := hAcc.1
    have h2 := hAcc.2
    rw [accClear] at h1
    rw [accColors] at h2
    constructor
    · simp only [List.countP_append]
      rw [show (generateFooter st).countP isClearScreenOp = 0 by rfl]
      omega
    · simp only [List.countP_append]
      rw [show (generateFooter st).countP isSetColorsOp = 0 by rfl]
      omega

lemma terminateSlide_buildInv (st : BState) (h : buildInv st) :
    buildInv (terminateSlide st) := by
  refine ⟨⟨(terminateSlide_counts st).1, le_of_eq (terminateSlide_counts st).2.symm⟩, ?_⟩
  intro slide hmem
  exact terminateSlide_slideOk st slide hmem h.1 h.2

lemma terminateSlide_buildInvEq (st : BState) (h : buildInvEq st) :
    buildInvEq (terminateSlide st) := by
  refine ⟨terminateSlide_counts st, ?_⟩
  intro slide hmem
  exact terminateSlide_slideOkEq st slide hmem h.1 h.2

lemma buildInv_of_countsMono {st st' : BState} (h : countsMono st st') (hi : buildInv st) :
    buildInv st' := by
  refine ⟨⟨h.1.trans hi.1.1, le_trans hi.1.2 h.2.1⟩, ?_⟩
  rw [h.2.2]
  exact hi.2

lemma buildInvEq_of_countsKept {st st' : BState} (h : countsKept st st') (hi : buildInvEq st) :
    buildInvEq st' := by
  refine ⟨⟨h.1.trans hi.1.1, h.2.1.trans hi.1.2⟩, ?_⟩
  rw [h.2.2]
  exact hi.2

lemma buildInvEq_buildInv {st : BState} (h : buildInvEq st) : buildInv st :=
  ⟨⟨h.1.1, le_of_eq h.1.2.symm⟩, fun slide hmem => ⟨(h.2 slide hmem).1,
    le_of_eq (h.2 slide hmem).2.symm⟩⟩

/-! ## Invariant propagation through the build loop -/

lemma processComment_inv (ctx : BuilderCtx) (comment : String) (pos : SourcePosition)
    (st st' : BState) (h : processComment ctx comment pos st = Except.ok st') :
    (buildInv st → buildInv st') ∧ (buildInvEq st → buildInvEq st') := by
  by_cases hIgn : shouldIgnoreComment comment
  · simp only [processComment, hIgn, if_true] at h
    injection h with h
    subst h
    exact ⟨id, id⟩
  · have hIgn' : shouldIgnoreComment comment = false := by simpa using hIgn
    simp only [processComment, hIgn', Bool.false_eq_true, if_false] at h
    cases hp : ctx.parseCommand comment with
    | error e => rw [hp] at h; cases h
    | ok command =>
      rw [hp] at h
      simp only at h
      cases command with
      | pause =>
        simp only at h
        injection h with h
        subst h
        have hk : countsKept st { processPause st with slideState :=
            { (processPause st).slideState with ignoreElementLineBreak := true } } :=
          countsKept_trans (countsKept_processPause st) (countsKept_setSlideState _ _)
        exact ⟨buildInv_of_countsMono (countsKept_countsMono hk),
          buildInvEq_of_countsKept hk⟩
      | endSlide =>
        simp only at h
        injection h with h
        subst h
        have hk : countsKept (terminateSlide st) { terminateSlide st with slideState :=
            { (terminateSlide st).slideState with ignoreElementLineBreak := true } } :=
          countsKept_setSlideState _ _
        constructor
        · intro hi
          exact buildInv_of_countsMono (countsKept_countsMono hk)
            (terminateSlide_buildInv st hi)
        · intro hi
          exact buildInvEq_of_countsKept hk (terminateSlide_buildInvEq st hi)
      | initColumnLayout columns =>
        simp only at h
        cases hv : validateColumnLayout columns with
        | error e => rw [hv] at h; cases h
        | ok u =>
          rw [hv] at h
          simp only at h
          injection h with h
          subst h
          constructor
          · refine buildInv_of_countsMono (countsKept_countsMono ?_)
            refine countsKept_trans ?_ (countsKept_setSlideState _ _)
            refine countsKept_trans ?_ (countsKept_pushOperations _ _ (by rfl) (by rfl))
            exact countsKept_setSlideState _ _
          · refine buildInvEq_of_countsKept ?_
            refine countsKept_trans ?_ (countsKept_setSlideState _ _)
            refine countsKept_trans ?_ (countsKept_pushOperations _ _ (by rfl) (by rfl))
            exact countsKept_setSlideState _ _
      | resetLayout =>
        simp only at h
        injection h with h
        subst h
        constructor
        · refine buildInv_of_countsMono (countsKept_countsMono ?_)
          refine countsKept_trans ?_ (countsKept_setSlideState _ _)
          refine countsKept_trans ?_ (countsKept_pushOperations _ _ (by rfl) (by rfl))
          exact countsKept_setSlideState _ _
        · refine buildInvEq_of_countsKept ?_
          refine countsKept_trans ?_ (countsKept_setSlideState _ _)
          refine countsKept_trans ?_ (countsKept_pushOperations _ _ (by rfl) (by rfl))
          exact countsKept_setSlideState _ _
      | column column =>
        simp only at h
        cases hl : st.slideState.layout with
        | layoutDefault => rw [hl] at h; simp only at h; cases h
        | inLayout columnsCount =>
          rw [hl] at h
          simp only at h
          split at h
          · cases h
          · rename_i stx heq
            injection h with h
            subst h
            split at heq
            · cases heq
            · split at heq
              · cases heq
              · injection heq with heq
                subst heq
                constructor
                · refine buildInv_of_countsMono (countsKept_countsMono ?_)
                  refine countsKept_trans ?_ (countsKept_setSlideState _ _)
                  refine countsKept_trans ?_
                    (countsKept_pushOperations _ _ (by rfl) (by rfl))
                  exact countsKept_setSlideState _ _
                · refine buildInvEq_of_countsKept ?_
                  refine countsKept_trans ?_ (countsKept_setSlideState _ _)
                  refine countsKept_trans ?_
                    (countsKept_pushOperations _ _ (by rfl) (by rfl))
                  exact countsKept_setSlideState _ _
        | inColumn current columnsCount =>
          rw [hl] at h
          simp only at h
          split at h
          · cases h
          · rename_i stx heq
            injection h with h
            subst h
            split at heq
            · cases heq
            · split at heq
              · cases heq
              · injection heq with heq
                subst heq
                constructor
                · refine buildInv_of_countsMono (countsKept_countsMono ?_)
                  refine countsKept_trans ?_ (countsKept_setSlideState _ _)
                  refine countsKept_trans ?_
                    (countsKept_pushOperations _ _ (by rfl) (by rfl))
                  exact countsKept_setSlideState _ _
                · refine buildInvEq_of_countsKept ?_
                  refine countsKept_trans ?_ (countsKept_setSlideState _ _)
                  refine countsKept_trans ?_
                    (countsKept_pushOperations _ _ (by rfl) (by rfl))
                  exact countsKept_setSlideState _ _

lemma processElement_inv (ctx : BuilderCtx) (element : MarkdownElement) (st st' : BState)
    (h : processElement ctx element st = Except.ok st') :
    (buildInv st → buildInv st')
      ∧ (addsExtraColors element = false → buildInvEq st → buildInvEq st') := by
  have wrapKept : ∀ x : BState, countsKept x { x with slideState :=
      { x.slideState with lastElement := LastElement.any } } := fun x =>
    countsKept_setSlideState x _
  cases element with
  | frontMatter contents =>
    simp only [processElement, shouldClearLast] at h
    injection h with h
    subst h
    have hk : countsKept st { st with slideState :=
        { st.slideState with ignoreElementLineBreak := true } } :=
      countsKept_setSlideState st _
    exact ⟨buildInv_of_countsMono (countsKept_countsMono hk), fun _ =>
      buildInvEq_of_countsKept hk⟩
  | setexHeading text =>
    simp only [processElement, shouldClearLast] at h
    injection h with h
    subst h
    have hk : countsKept st _ :=
      countsKept_trans (countsKept_pushSlideTitle text st) (wrapKept _)
    exact ⟨buildInv_of_countsMono (countsKept_countsMono hk), fun _ =>
      buildInvEq_of_countsKept hk⟩
  | heading level text =>
    simp only [processElement, shouldClearLast, if_pos] at h
    cases hh : pushHeading level text st with
    | error e => rw [hh] at h; cases h
    | ok st1 =>
      rw [hh] at h
      simp only at h
      injection h with h
      subst h
      have hk : countsKept st _ :=
        countsKept_trans (countsKept_pushHeading level text st st1 hh) (wrapKept _)
      exact ⟨buildInv_of_countsMono (countsKept_countsMono hk), fun _ =>
        buildInvEq_of_countsKept hk⟩
  | paragraph elements =>
    simp only [processElement, shouldClearLast] at h
    injection h with h
    subst h
    have hk : countsKept st _ :=
      countsKept_trans (countsKept_pushParagraph elements st) (wrapKept _)
    exact ⟨buildInv_of_countsMono (countsKept_countsMono hk), fun _ =>
      buildInvEq_of_countsKept hk⟩
  | list elements =>
    simp only [processElement, shouldClearLast] at h
    injection h with h
    subst h
    have hk : countsKept st _ := countsKept_pushList elements st
    exact ⟨buildInv_of_countsMono (countsKept_countsMono hk), fun _ =>
      buildInvEq_of_countsKept hk⟩
  | code code =>
    simp only [processElement, shouldClearLast] at h
    injection h with h
    subst h
    have hk : countsKept st _ :=
      countsKept_trans (countsKept_pushCode ctx code st) (wrapKept _)
    exact ⟨buildInv_of_countsMono (countsKept_countsMono hk), fun _ =>
      buildInvEq_of_countsKept hk⟩
  | table table =>
    simp only [processElement, shouldClearLast] at h
    injection h with h
    subst h
    have hk : countsKept st _ :=
      countsKept_trans (countsKept_pushTable table st) (wrapKept _)
    exact ⟨buildInv_of_countsMono (countsKept_countsMono hk), fun _ =>
      buildInvEq_of_countsKept hk⟩
  | thematicBreak =>
    simp only [processElement, shouldClearLast] at h
    injection h with h
    subst h
    have hk : countsKept st _ :=
      countsKept_trans (countsKept_pushSeparator st) (wrapKept _)
    exact ⟨buildInv_of_countsMono (countsKept_countsMono hk), fun _ =>
      buildInvEq_of_countsKept hk⟩
  | comment comment sourcePosition =>
    simp only [processElement, shouldClearLast] at h
    cases hc : processComment ctx comment sourcePosition st with
    | error e => rw [hc] at h; cases h
    | ok st1 =>
      rw [hc] at h
      simp only at h
      injection h with h
      subst h
      exact ⟨(processComment_inv ctx comment sourcePosition st st1 hc).1, fun _ =>
        (processComment_inv ctx comment sourcePosition st st1 hc).2⟩
  | blockQuote lines =>
    simp only [processElement, shouldClearLast] at h
    injection h with h
    subst h
    have hm : countsMono st _ :=
      countsMono_trans (countsMono_pushBlockQuote lines st)
        (countsKept_countsMono (wrapKept _))
    refine ⟨buildInv_of_countsMono hm, ?_⟩
    intro hx
    cases hx
  | image path =>
    simp only [processElement, shouldClearLast, if_pos] at h
    cases hi : pushImage ctx path st with
    | error e => rw [hi] at h; cases h
    | ok st1 =>
      rw [hi] at h
      simp only at h
      injection h with h
      subst h
      have hm : countsMono st _ :=
        countsMono_trans (countsMono_pushImage ctx path st st1 hi)
          (countsKept_countsMono (wrapKept _))
      refine ⟨buildInv_of_countsMono hm, ?_⟩
      intro hx
      cases hx

lemma processLoopBody_inv (ctx : BuilderCtx) (element : MarkdownElement) (st st' : BState)
    (h : processLoopBody ctx element st = Except.ok st') :
    (buildInv st → buildInv st')
      ∧ (addsExtraColors element = false → buildInvEq st → buildInvEq st') := by
  simp only [processLoopBody] at h
  have hk0 : countsKept st { st with slideState :=
      { st.slideState with ignoreElementLineBreak := false } } :=
    countsKept_setSlideState st _
  cases hpe : processElement ctx element
      { st with slideState := { st.slideState with ignoreElementLineBreak := false } } with
  | error e => rw [hpe] at h; cases h
  | ok st1 =>
    rw [hpe] at h
    simp only at h
    cases hv : validateLastOperation st1 with
    | error e => rw [hv] at h; cases h
    | ok st2 =>
      rw [hv] at h
      simp only at h
      have hVal := validateLastOperation_preserves st1 st2 hv
      have hkv : countsKept st1 st2 := by
        refine ⟨?_, ?_, hVal.2.2.1⟩ <;>
          simp [accClear, accColors, accOps, hVal.1, hVal.2.2.2]
      have hpe1 := processElement_inv ctx element _ st1 hpe
      have hFinal : (buildInv st2 → buildInv st') ∧ (buildInvEq st2 → buildInvEq st') := by
        split at h
        · injection h with h
          subst h
          exact ⟨buildInv_of_countsMono (countsKept_countsMono (countsKept_pushLineBreak _)),
            buildInvEq_of_countsKept (countsKept_pushLineBreak _)⟩
        · injection h with h
          subst h
          exact ⟨id, id⟩
      constructor
      · intro hi
        exact hFinal.1 (buildInv_of_countsMono (countsKept_countsMono hkv)
          (hpe1.1 (buildInv_of_countsMono (countsKept_countsMono hk0) hi)))
      · intro hx hi
        exact hFinal.2 (buildInvEq_of_countsKept hkv
          (hpe1.2 hx (buildInvEq_of_countsKept hk0 hi)))

lemma processElements_inv (ctx : BuilderCtx) :
    ∀ (elements : List MarkdownElement) (st st' : BState),
      processElements ctx elements st = Except.ok st' →
      (buildInv st → buildInv st')
        ∧ ((∀ e ∈ elements, addsExtraColors e = false) → buildInvEq st → buildInvEq st') := by
  intro elements
  induction elements with
  | nil =>
    intro st st' h
    cases h
    exact ⟨id, fun _ => id⟩
  | cons element rest ih =>
    intro st st' h
    simp only [processElements] at h
    cases hb : processLoopBody ctx element st with
    | error e => rw [hb] at h; cases h
    | ok st1 =>
      rw [hb] at h
      simp only at h
      have h1 := processLoopBody_inv ctx element st st1 hb
      have h2 := ih st1 st' h
      constructor
      · intro hi
        exact h2.1 (h1.1 hi)
      · intro hx hi
        exact h2.2 (fun e he => hx e (List.mem_cons_of_mem _ he))
          (h1.2 (hx element (List.mem_cons_self _ _)) hi)

lemma setTheme_state (ctx : BuilderCtx) (metadata : PresentationThemeMetadata)
    (st st' : BState) (h : setTheme ctx metadata st = Except.ok st') :
    st'.slideChunks = st.slideChunks ∧ st'.chunkOperations = st.chunkOperations
      ∧ st'.slides = st.slides := by
  simp only [setTheme] at h
  split at h
  · cases h
  · split at h
    · cases h
    · rename_i st1 hstep1
      split at h
      · cases h
      · rename_i st2 hstep2
        have h1 : st1.slideChunks = st.slideChunks ∧ st1.chunkOperations = st.chunkOperations
            ∧ st1.slides = st.slides := by
          split at hstep1
          · split at hstep1
            · cases hstep1
            · injection hstep1 with he; subst he; exact ⟨rfl, rfl, rfl⟩
          · injection hstep1 with he; subst he; exact ⟨rfl, rfl, rfl⟩
        have h2 : st2.slideChunks = st1.slideChunks ∧ st2.chunkOperations = st1.chunkOperations
            ∧ st2.slides = st1.slides := by
          split at hstep2
          · split at hstep2
            · cases hstep2
            · injection hstep2 with he; subst he; exact ⟨rfl, rfl, rfl⟩
          · injection hstep2 with he; subst he; exact ⟨rfl, rfl, rfl⟩
        have h3 : st'.slideChunks = st2.slideChunks ∧ st'.chunkOperations = st2.chunkOperations
            ∧ st'.slides = st2.slides := by
          split at h
          · split at h
            · cases h
            · injection h with he; subst he; exact ⟨rfl, rfl, rfl⟩
          · injection h with he; subst he; exact ⟨rfl, rfl, rfl⟩
        exact ⟨h3.1.trans (h2.1.trans h1.1), h3.2.1.trans (h2.2.1.trans h1.2.1),
          h3.2.2.trans (h2.2.2.trans h1.2.2)⟩

lemma setCodeTheme_state (ctx : BuilderCtx) (st st' : BState)
    (h : setCodeTheme ctx st = Except.ok st') :
    st'.slideChunks = st.slideChunks ∧ st'.chunkOperations = st.chunkOperations
      ∧ st'.slides = st.slides := by
  simp only [setCodeTheme] at h
  split at h
  · split at h
    · cases h
    · injection h with he; subst he; exact ⟨rfl, rfl, rfl⟩
  · injection h with he; subst he; exact ⟨rfl, rfl, rfl⟩

lemma accOps_pushSlidePrelude (st : BState) :
    accOps (pushSlidePrelude st)
      = accOps st
        ++ [RenderOperation.setColors st.theme.defaultStyle.colors,
            RenderOperation.clearScreen,
            RenderOperation.applyMargin
              { horizontalMargin := st.theme.defaultStyle.margin.getD (Margin.fixed 0),
                bottomSlideMargin := 3 },
            RenderOperation.renderLineBreak] := by
  simp [pushSlidePrelude, accOps_pushOperations, pushLineBreak, accOps, pushOperations]

lemma pushSlidePrelude_invEq (st : BState) (hAcc : accOps st = []) (hSlides : st.slides = []) :
    buildInvEq (pushSlidePrelude st) := by
  constructor
  · rw [accClear, accColors, accOps_pushSlidePrelude, hAcc]
    constructor <;> rfl
  · rw [show (pushSlidePrelude st).slides = st.slides from rfl, hSlides]
    intro slide hmem
    cases hmem

lemma pushIntroSlide_invEq (metadata : PresentationMetadata) (st : BState)
    (h : buildInvEq st) :
    buildInvEq (pushIntroSlide metadata st) ∧ (pushIntroSlide metadata st).chunkOperations ≠ [] := by
  simp only [pushIntroSlide]
  have hjump : ∀ x : BState,
      countsKept x (pushOperations [RenderOperation.jumpToVerticalCenter] x) := fun x =>
    countsKept_pushOperations _ _ (by rfl) (by rfl)
  have hbottom : ∀ x : BState,
      countsKept x (pushOperations [RenderOperation.jumpToBottomRow 0] x) := fun x =>
    countsKept_pushOperations _ _ (by rfl) (by rfl)
  constructor
  · apply terminateSlide_buildInvEq
    refine buildInvEq_of_countsKept ?_ h
    split
    · refine countsKept_trans ?_ (countsKept_pushText _ _ _)
      split
      · refine countsKept_trans ?_ (countsKept_pushLineBreaks _ _)
        split
        · refine countsKept_trans ?_ (countsKept_pushLineBreak _)
          refine countsKept_trans ?_ (countsKept_pushText _ _ _)
          refine countsKept_trans ?_ (countsKept_pushLineBreak _)
          refine countsKept_trans ?_ (countsKept_pushText _ _ _)
          exact hjump st
        · refine countsKept_trans ?_ (countsKept_pushLineBreak _)
          refine countsKept_trans ?_ (countsKept_pushText _ _ _)
          exact hjump st
      · refine countsKept_trans ?_ (hbottom _)
        split
        · refine countsKept_trans ?_ (countsKept_pushLineBreak _)
          refine countsKept_trans ?_ (countsKept_pushText _ _ _)
          refine countsKept_trans ?_ (countsKept_pushLineBreak _)
          refine countsKept_trans ?_ (countsKept_pushText _ _ _)
          exact hjump st
        · refine countsKept_trans ?_ (countsKept_pushLineBreak _)
          refine countsKept_trans ?_ (countsKept_pushText _ _ _)
          exact hjump st
    · split
      · refine countsKept_trans ?_ (countsKept_pushLineBreak _)
        refine countsKept_trans ?_ (countsKept_pushText _ _ _)
        refine countsKept_trans ?_ (countsKept_pushLineBreak _)
        refine countsKept_trans ?_ (countsKept_pushText _ _ _)
        exact hjump st
      · refine countsKept_trans ?_ (countsKept_pushLineBreak _)
        refine countsKept_trans ?_ (countsKept_pushText _ _ _)
        exact hjump st
  · rw [chunkOperations_terminateSlide]
    intro hx
    cases hx

lemma processFrontMatter_cases (ctx : BuilderCtx) (contents : String) (st st' : BState)
    (h : processFrontMatter ctx contents st = Except.ok st')
    (hAcc : accOps st = []) (hSlides : st.slides = []) :
    (accOps st' = [] ∧ st'.slides = [])
      ∨ (buildInvEq st' ∧ st'.chunkOperations ≠ []) := by
  simp only [processFrontMatter] at h
  cases hp : ctx.parseMetadata contents with
  | error e => rw [hp] at h; cases h
  | ok metadata =>
    rw [hp] at h
    simp only at h
    cases hts : setTheme ctx metadata.theme { st with footerAuthor := metadata.author.getD "" } with
    | error e => rw [hts] at h; cases h
    | ok st1 =>
      rw [hts] at h
      simp only at h
      have hst1 := setTheme_state _ _ _ _ hts
      have hAcc1 : accOps st1 = [] := by
        rw [accOps, hst1.1, hst1.2.1]
        rw [show ({ st with footerAuthor := metadata.author.getD "" } :
          BState).slideChunks = st.slideChunks from rfl]
        rw [show ({ st with footerAuthor := metadata.author.getD "" } :
          BState).chunkOperations = st.chunkOperations from rfl]
        rw [← accOps]
        exact hAcc
      have hSlides1 : st1.slides = [] := by
        rw [hst1.2.2]
        exact hSlides
      split at h
      · injection h with h
        subst h
        right
        exact pushIntroSlide_invEq metadata _ (pushSlidePrelude_invEq st1 hAcc1 hSlides1)
      · injection h with h
        subst h
        left
        exact ⟨hAcc1, hSlides1⟩

lemma buildInvEq_congr (st1 st2 : BState) (h1 : accOps st2 = accOps st1)
    (h2 : st2.slides = st1.slides) (h : buildInvEq st1) : buildInvEq st2 := by
  refine ⟨⟨?_, ?_⟩, ?_⟩
  · rw [accClear, h1, ← accClear]; exact h.1.1
  · rw [accColors, h1, ← accColors]; exact h.1.2
  · rw [h2]; exact h.2

lemma buildFinal_inv (st3 : BState) :
    (buildInv st3 →
        ∀ slide ∈ (if !st3.chunkOperations.isEmpty || !st3.slideChunks.isEmpty
            then terminateSlide st3 else st3).slides, slideOk slide)
      ∧ (buildInvEq st3 →
          ∀ slide ∈ (if !st3.chunkOperations.isEmpty || !st3.slideChunks.isEmpty
              then terminateSlide st3 else st3).slides, slideOkEq slide) := by
  constructor
  · intro hi
    split
    · exact (terminateSlide_buildInv st3 hi).2
    · exact hi.2
  · intro hi
    split
    · exact (terminateSlide_buildInvEq st3 hi).2
    · exact hi.2

/-! ## Theorems about per-slide preludes -/

/-- Counterexample for claim C5: a slide built from a single block quote
carries three color-set operations (the prelude's plus the two emitted by
`push_block_quote`, builder.rs lines 434 and 447), not one; an image adds
one more as well. -/
theorem slide_prelude_counts_counterexample :
    (build exampleCtx plainTheme {} [MarkdownElement.blockQuote ["hi"]]).toOption.map
        (fun p => p.slides.map fun slide => slide.intoOperations.countP isSetColorsOp)
      = some [3]
      ∧ (build exampleCtx plainTheme {} [MarkdownElement.image "pic.png"]).toOption.map
          (fun p => p.slides.map fun slide => slide.intoOperations.countP isSetColorsOp)
        = some [2] := by
  exact ⟨by decide, by decide⟩

/-- Claim C5 (amended): every slide of every built presentation carries
exactly one clear-screen operation; it carries at least one color-set
operation, and exactly one when no block-quote or image element contributed
(each block quote adds two color-sets, each image one). -/
theorem slide_prelude_counts :
    (∀ (ctx : BuilderCtx) (theme : PresentationTheme) (options : PresentationBuilderOptions)
        (elements : List MarkdownElement) (p : Presentation),
        build ctx theme options elements = Except.ok p →
        ∀ slide ∈ p.slides,
          slide.intoOperations.countP isClearScreenOp = 1
            ∧ 1 ≤ slide.intoOperations.countP isSetColorsOp)
      ∧ (∀ (ctx : BuilderCtx) (theme : PresentationTheme)
          (options : PresentationBuilderOptions)
          (elements : List MarkdownElement) (p : Presentation),
          build ctx theme options elements = Except.ok p →
          (∀ e ∈ elements, addsExtraColors e = false) →
          ∀ slide ∈ p.slides,
            slide.intoOperations.countP isClearScreenOp = 1
              ∧ slide.intoOperations.countP isSetColorsOp = 1) := by
  have key : ∀ (ctx : BuilderCtx) (theme : PresentationTheme)
      (options : PresentationBuilderOptions)
      (elements : List MarkdownElement) (p : Presentation),
      build ctx theme options elements = Except.ok p →
      (∀ slide ∈ p.slides, slideOk slide)
        ∧ ((∀ e ∈ elements, addsExtraColors e = false) → ∀ slide ∈ p.slides, slideOkEq slide) := by
    intro ctx theme options elements p h
    simp only [build] at h
    have hTail : ∀ st2 : BState, buildInvEq
        (if st2.chunkOperations.isEmpty then pushSlidePrelude st2 else st2) →
        (match processElements ctx elements
            (if st2.chunkOperations.isEmpty then pushSlidePrelude st2 else st2) with
          | Except.error e => Except.error e
          | Except.ok st3 =>
            Except.ok (Presentation.new
              (if !st3.chunkOperations.isEmpty || !st3.slideChunks.isEmpty
               then terminateSlide st3 else st3).slides)) = Except.ok p →
        (∀ slide ∈ p.slides, slideOk slide)
          ∧ ((∀ e ∈ elements, addsExtraColors e = false) →
              ∀ slide ∈ p.slides, slideOkEq slide) := by
      intro st2 hInv h
      cases hpe : processElements ctx elements
          (if st2.chunkOperations.isEmpty then pushSlidePrelude st2 else st2) with
      | error e => rw [hpe] at h; cases h
      | ok st3 =>
        rw [hpe] at h
        simp only at h
        injection h with h
        subst h
        have hPE := processElements_inv ctx elements _ st3 hpe
        constructor
        · intro slide hmem
          exact (buildFinal_inv st3).1 (hPE.1 (buildInvEq_buildInv hInv)) slide hmem
        · intro hx slide hmem
          exact (buildFinal_inv st3).2 (hPE.2 hx hInv) slide hmem
    split at h
    · cases h
    · rename_i st1 heq
      have hMid : (accOps st1 = [] ∧ st1.slides = [])
          ∨ (buildInvEq st1 ∧ st1.chunkOperations ≠ []) := by
        split at heq
        · exact processFrontMatter_cases _ _ _ _ heq (by rfl) (by rfl)
        · injection heq with heq
          subst heq
          exact Or.inl ⟨by rfl, rfl⟩
      cases hct : setCodeTheme ctx st1 with
      | error e => rw [hct] at h; cases h
      | ok st2 =>
        rw [hct] at h
        simp only at h
        have hs := setCodeTheme_state ctx st1 st2 hct
        have hAcc12 : accOps st2 = accOps st1 := by
          rw [accOps, hs.1, hs.2.1, ← accOps]
        rcases hMid with ⟨hAcc1, hSlides1⟩ | ⟨hEq1, hne1⟩
        · have hAcc2 : accOps st2 = [] := by rw [hAcc12]; exact hAcc1
          have hOps2 : st2.chunkOperations = [] := by
            have h5 := hAcc2
            rw [accOps] at h5
            exact (List.append_eq_nil.mp h5).2
          have hEmpty : st2.chunkOperations.isEmpty = true := by
            rw [hOps2]; rfl
          refine hTail st2 ?_ h
          rw [if_pos hEmpty]
          refine pushSlidePrelude_invEq st2 hAcc2 ?_
          rw [hs.2.2]; exact hSlides1
        · have hOps2 : st2.chunkOperations ≠ [] := by
            rw [hs.2.1]; exact hne1
          have hEmpty : st2.chunkOperations.isEmpty = false := by
            cases hc : st2.chunkOperations with
            | nil => exact absurd hc hOps2
            | cons a l => rfl
          refine hTail st2 ?_ h
          rw [if_neg (by rw [hEmpty]; exact Bool.false_ne_true)]
          exact buildInvEq_congr st1 st2 hAcc12 hs.2.2 hEq1
  constructor
  · intro ctx theme options elements p h slide hmem
    exact (key ctx theme options elements p h).1 slide hmem
  · intro ctx theme options elements p h hx slide hmem
    exact (key ctx theme options elements p h).2 hx slide hmem

/-- Witness for C5's amended statement: the single slide of an empty
document carries exactly one clear-screen and one color-set operation. -/
theorem slide_prelude_counts_witness :
    (Slide.intoOperations
        { chunks := [{ operations :=
            [RenderOperation.setColors {},
             RenderOperation.clearScreen,
             RenderOperation.applyMargin
               { horizontalMargin := Margin.fixed 0, bottomSlideMargin := 3 },
             RenderOperation.renderLineBreak] }],
          footer := [RenderOperation.exitLayout, RenderOperation.popMargin,
            RenderOperation.renderDynamic
              (DynamicContent.footerGenerator
                { currentSlide := 0, style := FooterStyle.empty })] }).countP isClearScreenOp = 1
      ∧ (Slide.intoOperations
          { chunks := [{ operations :=
              [RenderOperation.setColors {},
               RenderOperation.clearScreen,
               RenderOperation.applyMargin
                 { horizontalMargin := Margin.fixed 0, bottomSlideMargin := 3 },
               RenderOperation.renderLineBreak] }],
            footer := [RenderOperation.exitLayout, RenderOperation.popMargin,
              RenderOperation.renderDynamic
                (DynamicContent.footerGenerator
                  { currentSlide := 0, style := FooterStyle.empty })] }).countP isSetColorsOp
        = 1 := by
  refine slide_prelude_counts.2 exampleCtx plainTheme {} []
    (Presentation.new [_]) (by rfl) (fun e he => absurd he (List.not_mem_nil e)) _ ?_
  exact List.mem_singleton.mpr (by rfl)

/-! ## Theorems about line-break suppression -/

/-- Counterexample for claim C4: a setex heading (slide title) — which is
neither front matter nor an embedded command — also suppresses the
automatic trailing line break (builder.rs line 324). -/
theorem line_break_suppression_counterexample :
    (processElement exampleCtx (MarkdownElement.setexHeading (Text.ofString "hi"))
        { theme := plainTheme }).map (fun st => st.slideState.ignoreElementLineBreak)
      = Except.ok true
      ∧ suppressesLineBreak (MarkdownElement.setexHeading (Text.ofString "hi")) = true := by
  exact ⟨rfl, rfl⟩

/-- Claim C4 (amended): the automatic trailing line break is suppressed
exactly for front matter, setex headings, and non-ignored embedded
comments; after processing any element of another kind the loop body always
appends the automatic trailing line break. -/
theorem line_break_suppression :
    (∀ (ctx : BuilderCtx) (element : MarkdownElement) (st st' : BState),
        st.slideState.ignoreElementLineBreak = false →
        processElement ctx element st = Except.ok st' →
        st'.slideState.ignoreElementLineBreak = suppressesLineBreak element)
      ∧ (∀ (ctx : BuilderCtx) (element : MarkdownElement) (st st' : BState),
          suppressesLineBreak element = false →
          processLoopBody ctx element st = Except.ok st' →
          st'.chunkOperations.getLast? = some RenderOperation.renderLineBreak) := by
  have main : ∀ (ctx : BuilderCtx) (element : MarkdownElement) (st st' : BState),
      st.slideState.ignoreElementLineBreak = false →
      processElement ctx element st = Except.ok st' →
      st'.slideState.ignoreElementLineBreak = suppressesLineBreak element := by
    intro ctx element st st' hFlag h
    cases element with
    | frontMatter contents =>
      simp only [processElement, shouldClearLast] at h
      cases h; rfl
    | setexHeading text =>
      simp only [processElement, shouldClearLast] at h
      cases h; rfl
    | heading level text =>
      simp only [processElement, shouldClearLast, if_pos] at h
      cases hh : pushHeading level text st with
      | error e => rw [hh] at h; cases h
      | ok st1 =>
        rw [hh] at h
        simp only at h
        cases h
        simp only [pushHeading] at hh
        cases hs : headingStyleFor st level with
        | error msg => rw [hs] at hh; cases hh
        | ok pair =>
          rw [hs] at hh
          cases pair with
          | mk elementType style =>
            simp only at hh
            cases hh
            simp only [suppressesLineBreak]
            rw [show ∀ x : BState, ({ x with slideState :=
                { x.slideState with lastElement := LastElement.any } } :
                BState).slideState.ignoreElementLineBreak
                = x.slideState.ignoreElementLineBreak from fun _ => rfl]
            rw [slideState_pushLineBreak, slideState_pushText, hFlag]
    | paragraph elements =>
      simp only [processElement, shouldClearLast, if_pos] at h
      cases h
      simp only [suppressesLineBreak]
      rw [show ∀ x : BState, ({ x with slideState :=
          { x.slideState with lastElement := LastElement.any } } :
          BState).slideState.ignoreElementLineBreak
          = x.slideState.ignoreElementLineBreak from fun _ => rfl]
      rw [slideState_pushParagraph, hFlag]
    | list elements =>
      simp only [processElement, shouldClearLast] at h
      cases h
      simp only [suppressesLineBreak]
      rw [ignore_pushList, hFlag]
    | code code =>
      simp only [processElement, shouldClearLast, if_pos] at h
      cases h
      simp only [suppressesLineBreak]
      rw [show ∀ x : BState, ({ x with slideState :=
          { x.slideState with lastElement := LastElement.any } } :
          BState).slideState.ignoreElementLineBreak
          = x.slideState.ignoreElementLineBreak from fun _ => rfl]
      rw [slideState_pushCode, hFlag]
    | table table =>
      simp only [processElement, shouldClearLast, if_pos] at h
      cases h
      simp only [suppressesLineBreak]
      rw [show ∀ x : BState, ({ x with slideState :=
          { x.slideState with lastElement := LastElement.any } } :
          BState).slideState.ignoreElementLineBreak
          = x.slideState.ignoreElementLineBreak from fun _ => rfl]
      rw [slideState_pushTable, hFlag]
    | thematicBreak =>
      simp only [processElement, shouldClearLast, if_pos] at h
      cases h
      simp only [suppressesLineBreak]
      rw [show ∀ x : BState, ({ x with slideState :=
          { x.slideState with lastElement := LastElement.any } } :
          BState).slideState.ignoreElementLineBreak
          = x.slideState.ignoreElementLineBreak from fun _ => rfl]
      exact hFlag
    | comment comment sourcePosition =>
      simp only [processElement, shouldClearLast] at h
      simp only [suppressesLineBreak]
      cases hc : processComment ctx comment sourcePosition st with
      | error e => rw [hc] at h; cases h
      | ok st1 =>
        rw [hc] at h
        simp only at h
        cases h
        rw [processComment_flag _ _ _ _ _ hc]
        by_cases hIgn : shouldIgnoreComment comment
        · simp [hIgn, hFlag]
        · have hIgn' : shouldIgnoreComment comment = false := by simpa using hIgn
          simp [hIgn']
    | blockQuote lines =>
      simp only [processElement, shouldClearLast, if_pos] at h
      cases h
      simp only [suppressesLineBreak]
      rw [show ∀ x : BState, ({ x with slideState :=
          { x.slideState with lastElement := LastElement.any } } :
          BState).slideState.ignoreElementLineBreak
          = x.slideState.ignoreElementLineBreak from fun _ => rfl]
      rw [slideState_pushBlockQuote, hFlag]
    | image path =>
      simp only [processElement, shouldClearLast, if_pos, pushImage] at h
      cases hi : ctx.loadImage path with
      | error e => rw [hi] at h; cases h
      | ok image =>
        rw [hi] at h
        simp only at h
        cases h
        simp only [suppressesLineBreak]
        rw [show ∀ x : BState, ({ x with slideState :=
            { x.slideState with lastElement := LastElement.any } } :
            BState).slideState.ignoreElementLineBreak
            = x.slideState.ignoreElementLineBreak from fun _ => rfl]
        rw [slideState_pushOperations, hFlag]
  refine ⟨main, ?_⟩
  intro ctx element st st' hSup h
  simp only [processLoopBody] at h
  cases hpe : processElement ctx element
      { st with slideState := { st.slideState with ignoreElementLineBreak := false } } with
  | error e => rw [hpe] at h; cases h
  | ok st1 =>
    rw [hpe] at h
    simp only at h
    cases hv : validateLastOperation st1 with
    | error e => rw [hv] at h; cases h
    | ok st2 =>
      rw [hv] at h
      simp only at h
      have h1 : st1.slideState.ignoreElementLineBreak = suppressesLineBreak element :=
        main ctx element _ st1 rfl hpe
      have h2 := validateLastOperation_preserves st1 st2 hv
      rw [h2.2.1, h1, hSup] at h
      simp only [Bool.not_false, if_pos] at h
      cases h
      simp [pushLineBreak, pushOperations]

/-- Witness for C4's amended statement: a paragraph keeps the suppression
flag off, so the loop body ends the chunk in the automatic line break. -/
theorem line_break_suppression_witness :
    (pushLineBreak { theme := plainTheme } : BState).chunkOperations.getLast?
      = some RenderOperation.renderLineBreak := by
  exact line_break_suppression.2 exampleCtx (MarkdownElement.paragraph [])
    { theme := plainTheme } (pushLineBreak { theme := plainTheme }) rfl rfl

/-! ## Theorems about the session controller -/

/-- Claim C2: after a successful reload (outside presentation mode), if the
differ reports no divergence the adopted presentation's cursor equals the
prior cursor exactly, and if it reports a first divergence at `(s, c)` the
adopted cursor equals `(s, c)`.  The differ is the external collaborator;
the bounds hypotheses state its contract that the reported position (or, for
"no divergence", the previous cursor position) designates a valid position
of the new presentation. -/
theorem reload_cursor_preservation (loadResult : Except String Presentation)
    (differ : Presentation → Presentation → Option Modification)
    (old fresh : Presentation)
    (hLoad : loadResult = Except.ok fresh) :
    (differ old fresh = none →
        old.currentSlide < fresh.slides.length →
        old.currentChunk < ((fresh.slides.getD old.currentSlide {}).chunks).length →
        tryReload PresentMode.development loadResult differ (PresenterState.presenting old)
          = some (PresenterState.presenting
              { fresh with currentSlide := old.currentSlide,
                           currentChunk := old.currentChunk }))
      ∧ (∀ s c, differ old fresh = some { slideIndex := s, chunkIndex := c } →
          s < fresh.slides.length →
          c < ((fresh.slides.getD s {}).chunks).length →
          tryReload PresentMode.development loadResult differ (PresenterState.presenting old)
            = some (PresenterState.presenting
                { fresh with currentSlide := s, currentChunk := c })) := by
  subst hLoad
  constructor
  · intro hDiff h1 h2
    have hm1 : min old.currentSlide (fresh.slides.length - 1) = old.currentSlide := by omega
    simp only [tryReload, PresenterState.presentationOf, hDiff]
    simp only [Presentation.jumpSlide, Presentation.jumpChunk,
      Presentation.currentSlideChunkCount, hm1]
    simp only [List.getD] at h2
    simp only [List.get?_eq_getElem?] at h2
    simp [Presentation.mk.injEq, List.getD]
    omega
  · intro s c hDiff h1 h2
    have hm1 : min s (fresh.slides.length - 1) = s := by omega
    simp only [tryReload, PresenterState.presentationOf, hDiff]
    simp only [Presentation.jumpSlide, Presentation.jumpChunk,
      Presentation.currentSlideChunkCount, hm1]
    simp only [List.getD] at h2
    simp only [List.get?_eq_getElem?] at h2
    simp [Presentation.mk.injEq, List.getD]
    omega

/-- Witness for C2: a two-slide presentation reloaded with no divergence
keeps its cursor on slide 1. -/
theorem reload_cursor_preservation_witness :
    tryReload PresentMode.development
        (Except.ok { slides := [{ chunks := [{}] }, { chunks := [{}] }] })
        (fun _ _ => none)
        (PresenterState.presenting
          { slides := [{ chunks := [{}] }, { chunks := [{}] }], currentSlide := 1,
            currentChunk := 0 })
      = some (PresenterState.presenting
          { slides := [{ chunks := [{}] }, { chunks := [{}] }], currentSlide := 1,
            currentChunk := 0 }) := by
  have h := (reload_cursor_preservation
      (Except.ok { slides := [{ chunks := [{}] }, { chunks := [{}] }] })
      (fun _ _ => none)
      { slides := [{ chunks := [{}] }, { chunks := [{}] }], currentSlide := 1,
        currentChunk := 0 }
      { slides := [{ chunks := [{}] }, { chunks := [{}] }] }
      rfl).1 rfl (by decide) (by decide)
  simpa using h

/-! ## Theorems about layout commands -/

/-- Claim C3: every invalid layout command fails the build: an empty or
zero-width `column_layout` is rejected, and a `column: i` command fails with
the no-layout, already-in-it, or index-too-large error exactly as the
current layout state dictates; otherwise — from the just-opened layout state
or from inside a different column, with `i` within the declared count — it
enters column `i`.  Closed build runs confirm the failures and a
column-to-column switch end-to-end. -/
theorem layout_command_guards :
    (∀ (ctx : BuilderCtx) (comment : String) (pos : SourcePosition) (st : BState)
        (columns : List Nat),
        shouldIgnoreComment comment = false →
        ctx.parseCommand comment = Except.ok (CommentCommand.initColumnLayout columns) →
        columns = [] →
        processComment ctx comment pos st
          = Except.error (BuildError.invalidLayout "need at least one column"))
      ∧ (∀ ctx comment pos st columns,
          shouldIgnoreComment comment = false →
          ctx.parseCommand comment = Except.ok (CommentCommand.initColumnLayout columns) →
          0 ∈ columns →
          processComment ctx comment pos st
            = Except.error (BuildError.invalidLayout "can\x27t have zero sized columns"))
      ∧ (∀ ctx comment pos st column,
          shouldIgnoreComment comment = false →
          ctx.parseCommand comment = Except.ok (CommentCommand.column column) →
          st.slideState.layout = LayoutState.layoutDefault →
          processComment ctx comment pos st = Except.error BuildError.noLayout)
      ∧ (∀ ctx comment pos st column columnsCount,
          shouldIgnoreComment comment = false →
          ctx.parseCommand comment = Except.ok (CommentCommand.column column) →
          st.slideState.layout = LayoutState.inColumn column columnsCount →
          processComment ctx comment pos st = Except.error BuildError.alreadyInColumn)
      ∧ (∀ ctx comment pos st column columnsCount,
          shouldIgnoreComment comment = false →
          ctx.parseCommand comment = Except.ok (CommentCommand.column column) →
          st.slideState.layout = LayoutState.inLayout columnsCount →
          columnsCount ≤ column →
          processComment ctx comment pos st = Except.error BuildError.columnIndexTooLarge)
      ∧ (∀ ctx comment pos st column current columnsCount,
          shouldIgnoreComment comment = false →
          ctx.parseCommand comment = Except.ok (CommentCommand.column column) →
          st.slideState.layout = LayoutState.inColumn current columnsCount →
          current ≠ column → columnsCount ≤ column →
          processComment ctx comment pos st = Except.error BuildError.columnIndexTooLarge)
      ∧ (∀ ctx comment pos st column columnsCount,
          shouldIgnoreComment comment = false →
          ctx.parseCommand comment = Except.ok (CommentCommand.column column) →
          st.slideState.layout = LayoutState.inLayout columnsCount →
          column < columnsCount →
          processComment ctx comment pos st
            = Except.ok
                { st with
                  slideState :=
                    { st.slideState with
                      layout := LayoutState.inColumn column columnsCount,
                      ignoreElementLineBreak := true },
                  chunkOperations :=
                    st.chunkOperations ++ [RenderOperation.enterColumn column] })
      ∧ (∀ ctx comment pos st column current columnsCount,
          shouldIgnoreComment comment = false →
          ctx.parseCommand comment = Except.ok (CommentCommand.column column) →
          st.slideState.layout = LayoutState.inColumn current columnsCount →
          current ≠ column → column < columnsCount →
          processComment ctx comment pos st
            = Except.ok
                { st with
                  slideState :=
                    { st.slideState with
                      layout := LayoutState.inColumn column columnsCount,
                      ignoreElementLineBreak := true },
                  chunkOperations :=
                    st.chunkOperations ++ [RenderOperation.enterColumn column] })
      ∧ build exampleCtx plainTheme {} [MarkdownElement.comment "column_layout: []" {}]
          = Except.error (BuildError.invalidLayout "need at least one column")
      ∧ build exampleCtx plainTheme {} [MarkdownElement.comment "column_layout: [0]" {}]
          = Except.error (BuildError.invalidLayout "can\x27t have zero sized columns")
      ∧ build exampleCtx plainTheme {} [MarkdownElement.comment "column_layout: [1, 0]" {}]
          = Except.error (BuildError.invalidLayout "can\x27t have zero sized columns")
      ∧ build exampleCtx plainTheme {} [MarkdownElement.comment "column: 0" {}]
          = Except.error BuildError.noLayout
      ∧ build exampleCtx plainTheme {}
            [MarkdownElement.comment "column_layout: [1]" {},
             MarkdownElement.comment "column: 0" {},
             MarkdownElement.comment "column: 0" {}]
          = Except.error BuildError.alreadyInColumn
      ∧ build exampleCtx plainTheme {}
            [MarkdownElement.comment "column_layout: [1]" {},
             MarkdownElement.comment "column: 1" {}]
          = Except.error BuildError.columnIndexTooLarge
      ∧ (build exampleCtx plainTheme {}
            [MarkdownElement.comment "column_layout: [2, 1]" {},
             MarkdownElement.comment "column: 0" {},
             MarkdownElement.comment "column: 1" {}]).toOption.map
          (fun p => p.slides.map fun slide =>
              slide.intoOperations.filter fun op =>
                match op with
                | RenderOperation.enterColumn _ => true
                | _ => false)
        = some [[RenderOperation.enterColumn 0, RenderOperation.enterColumn 1]] := by
  refine ⟨?_, ?_, ?_, ?_, ?_, ?_, ?_, ?_, by rfl, by rfl, by rfl, by rfl, by rfl, by rfl,
    by rfl⟩
  · intro ctx comment pos st columns hIgn hParse hEmpty
    subst hEmpty
    simp [processComment, hIgn, hParse, validateColumnLayout]
  · intro ctx comment pos st columns hIgn hParse hZero
    have hne : columns.isEmpty = false := by
      cases columns with
      | nil => simp at hZero
      | cons a l => rfl
    have hAny : columns.any (fun column => column = 0) = true := by
      simp only [List.any_eq_true]
      exact ⟨0, hZero, by simp⟩
    simp [processComment, hIgn, hParse, validateColumnLayout, hne, hAny]
  · intro ctx comment pos st column hIgn hParse hLayout
    simp [processComment, hIgn, hParse, hLayout]
  · intro ctx comment pos st column columnsCount hIgn hParse hLayout
    simp [processComment, hIgn, hParse, hLayout]
  · intro ctx comment pos st column columnsCount hIgn hParse hLayout hLe
    have hx : ¬ column < columnsCount := by omega
    simp [processComment, hIgn, hParse, hLayout, hx, hLe]
  · intro ctx comment pos st column current columnsCount hIgn hParse hLayout hNe hLe
    have hx : ¬ column < columnsCount := by omega
    simp [processComment, hIgn, hParse, hLayout, hNe, hx, hLe]
  · intro ctx comment pos st column columnsCount hIgn hParse hLayout hLt
    have hx : ¬ columnsCount ≤ column := by omega
    simp [processComment, hIgn, hParse, hLayout, hx, pushOperations]
  · intro ctx comment pos st column current columnsCount hIgn hParse hLayout hNe hLt
    have hx : ¬ columnsCount ≤ column := by omega
    simp [processComment, hIgn, hParse, hLayout, hNe, hx, pushOperations]

/-- Witness for C3: from inside column 0 of a two-column layout, `column: 1`
switches to column 1 and records entering it. -/
theorem layout_command_guards_witness :
    processComment exampleCtx "column: 1" {}
        { theme := plainTheme,
          slideState := { layout := LayoutState.inColumn 0 2 } }
      = Except.ok
          { theme := plainTheme,
            slideState :=
              { layout := LayoutState.inColumn 1 2, ignoreElementLineBreak := true },
            chunkOperations := [RenderOperation.enterColumn 1] } := by
  have h := (layout_command_guards).2.2.2.2.2.2.2.1 exampleCtx "column: 1" {}
    { theme := plainTheme, slideState := { layout := LayoutState.inColumn 0 2 } }
    1 0 2 (by decide) (by rfl) (by rfl) (by decide) (by decide)
  simpa using h

/-! ## Theorems about list continuation -/

/-- Claim C6: a list processed while the current chunk is still empty and
the builder remembers the preceding sealed chunk having ended inside a
depth-0 list item drops that chunk's trailing line break and resumes
numbering from the remembered index plus one; otherwise numbering starts at
0.  The closed run reproduces the pause-split ordered list rendering within
a single slide. -/
theorem list_continuation_across_pause :
    (∀ (st : BState) (lastIndex : Nat),
        st.slideState.lastElement = LastElement.list lastIndex →
        st.chunkOperations = [] →
        listStartIndex st = lastIndex + 1)
      ∧ (∀ st : BState, st.slideState.lastElement = LastElement.any → listStartIndex st = 0)
      ∧ (∀ (st : BState) (lastIndex : Nat),
          st.slideState.lastElement = LastElement.list lastIndex →
          st.chunkOperations ≠ [] → listStartIndex st = 0)
      ∧ (∀ (st : BState) (lastChunk : SlideChunk),
          st.slideState.lastChunkEndedInList = true →
          st.chunkOperations = [] →
          st.slideChunks.getLast? = some lastChunk →
          lastChunk.operations.getLast? = some RenderOperation.renderLineBreak →
          (listContinuationPop st).slideChunks
            = st.slideChunks.dropLast ++ [lastChunk.popLast])
      ∧ (∀ (st : BState), st.slideState.lastChunkEndedInList = false →
          listContinuationPop st = st)
      ∧ (build exampleCtx plainTheme {} orderedListWithPausesElements).toOption.map
            (fun p => p.slides.map extractSlideTextLines)
          = some [["   1. one", "      1. one_one", "      2. one_two", "   2. two"]] := by
  refine ⟨?_, ?_, ?_, ?_, ?_, by decide⟩
  · intro st lastIndex hLast hOps
    simp [listStartIndex, hLast, hOps]
  · intro st hLast
    simp [listStartIndex, hLast]
  · intro st lastIndex hLast hOps
    have h : st.chunkOperations.isEmpty = false := by
      cases h : st.chunkOperations with
      | nil => exact absurd h hOps
      | cons a l => rfl
    simp [listStartIndex, hLast, h]
  · intro st lastChunk hEnded hOps hLastChunk hBreak
    simp [listContinuationPop, hLastChunk, hBreak, hEnded, hOps]
  · intro st hEnded
    cases h : st.slideChunks.getLast? with
    | none => simp [listContinuationPop, h]
    | some lastChunk => simp [listContinuationPop, h, hEnded]

/-- Witness for C6: in a state remembering depth-0 index 4 with an empty
current chunk, numbering resumes at 5, and the remembered trailing break of
the sealed chunk is dropped. -/
theorem list_continuation_across_pause_witness :
    listStartIndex
        { theme := plainTheme,
          slideState := { lastElement := LastElement.list 4, lastChunkEndedInList := true } }
      = 5
    ∧ (listContinuationPop
          { theme := plainTheme,
            slideState := { lastElement := LastElement.list 4, lastChunkEndedInList := true },
            slideChunks := [{ operations := [RenderOperation.renderLineBreak] }] }).slideChunks
        = [{ operations := [] }] := by
  constructor
  · exact list_continuation_across_pause.1
      { theme := plainTheme,
        slideState := { lastElement := LastElement.list 4, lastChunkEndedInList := true } }
      4 rfl rfl
  · have h := list_continuation_across_pause.2.2.2.1
      { theme := plainTheme,
        slideState := { lastElement := LastElement.list 4, lastChunkEndedInList := true },
        slideChunks := [{ operations := [RenderOperation.renderLineBreak] }] }
      { operations := [RenderOperation.renderLineBreak] }
      rfl rfl rfl rfl
    simpa [SlideChunk.popLast] using h

/-! ## Theorems about heading levels -/

/-- Claim C10: processing a heading whose level is outside 1 through 6
reaches the builder's `panic!`; for levels within 1..=6 the panic branch is
unreachable and the heading is pushed successfully. -/
theorem heading_level_panics :
    (∀ (level : Nat) (text : Text) (st : BState), 1 ≤ level → level ≤ 6 →
        (pushHeading level text st).isOk = true)
      ∧ (∀ (level : Nat) (text : Text) (st : BState), level = 0 ∨ 7 ≤ level →
          pushHeading level text st
            = Except.error (BuildError.panicked s!"unexpected heading level {level}"))
      ∧ (∀ (ctx : BuilderCtx) (text : Text) (st : BState),
          processElement ctx (MarkdownElement.heading 7 text) st
            = Except.error (BuildError.panicked "unexpected heading level 7")) := by
  refine ⟨?_, ?_, ?_⟩
  · intro level text st h1 h6
    interval_cases level <;>
      simp [pushHeading, headingStyleFor, Except.isOk, Except.toBool]
  · intro level text st h
    have e1 : level ≠ 1 := by omega
    have e2 : level ≠ 2 := by omega
    have e3 : level ≠ 3 := by omega
    have e4 : level ≠ 4 := by omega
    have e5 : level ≠ 5 := by omega
    have e6 : level ≠ 6 := by omega
    simp [pushHeading, headingStyleFor, e1, e2, e3, e4, e5, e6]
  · intro ctx text st
    simp [processElement, pushHeading, headingStyleFor]
    rfl

/-- Witness for C10: a level-3 heading is processed without panicking. -/
theorem heading_level_panics_witness :
    (pushHeading 3 (Text.ofString "section") { theme := plainTheme }).isOk = true :=
  heading_level_panics.1 3 (Text.ofString "section") { theme := plainTheme }
    (by decide) (by decide)

end Presenterm
